import Mathlib

/-!
# stream_generator: producer / consumer benchmark harness

Shallow embedding of `stream_generator.cpp`.

* `generator_thread::operator()` becomes `generator_iteration` (one pass through the
  body of the `while (_running)` loop) and `generator_run` (a number of passes).
* `consumer_thread::operator()` becomes `consumer_iteration` and `consumer_run`.

Everything the two loops obtain from outside (the clock, the outcome of a send, of a
reopen, of a poll, the message received) is an explicit input of the iteration.

Conventions.

* `time_t`, `suseconds_t` and the 64-bit wire integers are `Int`; a subtraction of two
  of them is reduced to the signed 64-bit range by `wrap64`.
* The `size_t` counters of the Consumer start at zero and grow by one per message; they
  are `Nat`. The uninitialised `read_lines` of the Producer is counted modulo `2 ^ 64`.
* A `double` holds the rational it denotes. Every conversion to `double` and every
  `double` operation rounds its exact result to the nearest binary64 value, ties to even
  (`round_double`); integers below `2 ^ 53` in magnitude are held exactly. The one
  operation whose IEEE result is not a rational, a division by zero, is made explicit
  in `double_div`.
* The poller and the serialisation library are not part of the repository; what is
  assumed of them is stated in definitions marked as modelled from the spec.
* A C++ exception leaving the loop body is the `thrown` flag of the iteration result.
-/

set_option autoImplicit false

namespace StreamGenerator

/-! ## Bytes, frames and messages -/

/-- One `char` of a `std::string` or of the data file. -/
abbrev Byte := Fin 256

/-- The line terminator used by `std::getline`. -/
def newline : Byte := 10

/-- A `struct timeval`. -/
structure timeval where
  tv_sec : Int
  tv_usec : Int
deriving DecidableEq, Repr

/-- Reduction of an integer to the signed 64-bit range (two's complement). -/
def wrap64 (x : Int) : Int := (x + 2 ^ 63) % 2 ^ 64 - 2 ^ 63

/-- The values a signed 64-bit integer can hold. -/
def is_int64 (x : Int) : Prop := -(2 ^ 63) ≤ x ∧ x < 2 ^ 63

instance (x : Int) : Decidable (is_int64 x) := by
  unfold is_int64; infer_instance

/-- One frame (part) of a multi-part message: its raw bytes. The length of a frame is
carried by the framing layer, not by the bytes. -/
abbrev frame := List Byte

/-- A multi-part message: its frames in order. -/
abbrev message_t := List frame

/-- Modelled from the spec: the serialisation library (zmqpp) is not part of the
repository. "signed 64-bit seconds, signed 64-bit microseconds" travel as one frame of
eight bytes each; the bytes are the two's complement value, most significant first. -/
def encode_int64 (v : Int) : frame :=
  let n : Nat := (v % 2 ^ 64).toNat
  [Fin.ofNat (n / 2 ^ 56), Fin.ofNat (n / 2 ^ 48), Fin.ofNat (n / 2 ^ 40),
   Fin.ofNat (n / 2 ^ 32), Fin.ofNat (n / 2 ^ 24), Fin.ofNat (n / 2 ^ 16),
   Fin.ofNat (n / 2 ^ 8), Fin.ofNat n]

/-- Modelled from the spec: reading a 64-bit integer back from a frame. A frame that
does not hold exactly eight bytes is "not parseable as an integer". -/
def decode_int64 : frame → Option Int
  | [b0, b1, b2, b3, b4, b5, b6, b7] =>
    let n : Nat := b0.val * 2 ^ 56 + b1.val * 2 ^ 48 + b2.val * 2 ^ 40 + b3.val * 2 ^ 32
      + b4.val * 2 ^ 24 + b5.val * 2 ^ 16 + b6.val * 2 ^ 8 + b7.val
    some (if n < 2 ^ 63 then (n : Int) else (n : Int) - 2 ^ 64)
  | _ => none

/-- Modelled from the spec: `message >> integer` at read cursor `part`; it fails when
the message has no such frame or the frame is not an integer frame. -/
def get_int64 (m : message_t) (part : Nat) : Option Int :=
  match m.get? part with
  | some f => decode_int64 f
  | none => none

/-- Modelled from the spec: `message >> string` at read cursor `part`; the payload
frame is taken as it is, whatever bytes it holds. -/
def get_string (m : message_t) (part : Nat) : Option (List Byte) :=
  m.get? part

/-- The message of lines 95-96: `message << tv.tv_sec << tv.tv_usec << line`. -/
def make_message (tv : timeval) (line : List Byte) : message_t :=
  [encode_int64 tv.tv_sec, encode_int64 tv.tv_usec, line]

/-- The three reads of line 146, in the Consumer's order, as one function:
`message >> tv1.tv_sec >> tv1.tv_usec >> line`. -/
def decode_message (m : message_t) : Option (timeval × List Byte) :=
  match get_int64 m 0 with
  | none => none
  | some s =>
    match get_int64 m 1 with
    | none => none
    | some u =>
      match get_string m 2 with
      | none => none
      | some l => some (⟨s, u⟩, l)

/-! ## The Producer: `generator_thread` -/

/-- The part of a `std::ifstream` the loop depends on: whether a file is open, the
bytes not yet read, and the two state flags the loop can raise. -/
structure ifstream where
  is_open : Bool
  rest : List Byte
  eofbit : Bool
  failbit : Bool
deriving DecidableEq, Repr

/-- Character extraction of `std::getline`: bytes are taken up to the first newline,
which is consumed and not stored, or up to the end of the file. The result is the line,
the bytes left, and whether the end of the file was hit while extracting. -/
def extract_line : List Byte → List Byte × List Byte × Bool
  | [] => ([], [], true)
  | c :: cs =>
    if c = newline then ([], cs, false)
    else
      let r := extract_line cs
      (c :: r.1, r.2.1, r.2.2)

/-- The call `std::getline(_ifs, line)`. When the stream is not good the sentry fails:
`failbit` is raised and `line` keeps its previous content. Otherwise `line` is erased
and refilled; hitting the end of the file raises `eofbit`, and extracting nothing at
all raises `failbit` as well. -/
def getline (ifs : ifstream) (line : List Byte) : ifstream × List Byte :=
  if ifs.eofbit || ifs.failbit then
    ({ ifs with failbit := true }, line)
  else
    let r := extract_line ifs.rest
    ({ ifs with rest := r.2.1, eofbit := r.2.2, failbit := r.2.2 && r.1.isEmpty }, r.1)

/-- The call `_ifs.close()`: closing a stream that holds no open file raises `failbit`. -/
def ifstream_close (ifs : ifstream) : ifstream :=
  if ifs.is_open then { ifs with is_open := false, rest := [] }
  else { ifs with failbit := true }

/-- The call `_ifs.open(_filename)`: `file` is the content of the data file and
`open_ok` tells whether the operating system opens it. Success clears the state flags
and puts the read position at the start; failure raises `failbit`. -/
def ifstream_open (file : List Byte) (open_ok : Bool) (ifs : ifstream) : ifstream :=
  if open_ok && !ifs.is_open then
    { is_open := true, rest := file, eofbit := false, failbit := false }
  else { ifs with failbit := true }

/-- What `_socket.send(message, true)` can do: queue the message and return `true`,
return `false` because the message cannot be queued without blocking, or raise an
error. -/
inductive send_result where
  | sent
  | would_block
  | throws
deriving DecidableEq, Repr

/-- What one pass of the Producer loop takes from outside. -/
structure generator_env where
  now : timeval
  send : send_result
  open_ok : Bool
deriving DecidableEq, Repr

/-- The variables of `generator_thread::operator()`. -/
structure generator_state where
  ifs : ifstream
  line : List Byte
  read_lines : Nat
deriving DecidableEq, Repr

/-- The result of one pass of the Producer loop: the variables, the message handed to
`send` (if any) with what `send` did, and whether an exception left the loop. -/
structure generator_step where
  state : generator_state
  sent : Option (message_t × send_result)
  thrown : Bool
deriving DecidableEq, Repr

/-- Lines 101-106: on end-of-file the file is closed and opened again. -/
def restart_on_eof (file : List Byte) (open_ok : Bool) (ifs : ifstream) : ifstream :=
  if ifs.eofbit then ifstream_open file open_ok (ifstream_close ifs) else ifs

/-- One pass through the body of `while (_running)` in `generator_thread::operator()`
(lines 86-106). The value `send` returns is not looked at; an error raised by `send`
leaves the loop before the end-of-file check. -/
def generator_iteration (file : List Byte) (env : generator_env) (s : generator_state) :
    generator_step :=
  let g := getline s.ifs s.line
  if g.2 ≠ [] then
    let message := make_message env.now g.2
    let counted := (s.read_lines + 1) % 2 ^ 64
    match env.send with
    | send_result.throws =>
      { state := { ifs := g.1, line := g.2, read_lines := counted },
        sent := some (message, send_result.throws), thrown := true }
    | r =>
      { state := { ifs := restart_on_eof file env.open_ok g.1, line := g.2,
                   read_lines := counted },
        sent := some (message, r), thrown := false }
  else
    { state := { ifs := restart_on_eof file env.open_ok g.1, line := g.2,
                 read_lines := s.read_lines },
      sent := none, thrown := false }

/-- The state of a running Producer loop between two passes. -/
structure generator_run_state where
  state : generator_state
  sends : List (message_t × send_result)
  terminated : Bool
deriving DecidableEq, Repr

/-- The first `n` passes of the Producer loop; `env i` is what pass number `i`
(counted from zero) takes from outside. Once an exception has left the loop no further
pass runs. -/
def generator_run (file : List Byte) (env : Nat → generator_env) :
    Nat → generator_run_state → generator_run_state
  | 0, r => r
  | n + 1, r =>
    let p := generator_run file env n r
    if p.terminated then p
    else
      let st := generator_iteration file (env n) p.state
      { state := st.state,
        sends := p.sends ++ st.sent.toList,
        terminated := st.thrown }

/-- An open stream in good state with `rest` still to read. -/
def good_stream (rest : List Byte) : ifstream :=
  { is_open := true, rest := rest, eofbit := false, failbit := false }

/-- The Producer as `generator_thread::generator_thread` leaves it when the data file
could be opened: the stream is at the start of the file, `line` is empty, and
`read_lines` holds whatever the uninitialised variable holds. -/
def generator_init (file : List Byte) (garbage : Nat) : generator_run_state :=
  { state := { ifs := good_stream file, line := [], read_lines := garbage },
    sends := [], terminated := false }

/-- The payloads of the messages handed to `send`, in order. -/
def sent_payloads (r : generator_run_state) : List (List Byte) :=
  r.sends.map (fun m => m.1.getD 2 [])

/-- Specification side: the lines of a file are the pieces between newline terminators;
a last piece without a terminator is a line too. -/
def file_lines (file : List Byte) : List (List Byte) :=
  file.splitOn newline

/-- Specification side: the non-empty lines of a file, in order. -/
def nonempty_lines (file : List Byte) : List (List Byte) :=
  (file_lines file).filter (fun l => l ≠ [])

/-- Specification side: the first `j` rounds of the endless cyclic stream of `lines`. -/
def replay (lines : List (List Byte)) (j : Nat) : List (List Byte) :=
  (List.replicate j lines).flatten

/-- The payload of the message a loop pass handed to `send`, as a list of at most one
line. -/
def step_payload (st : generator_step) : List (List Byte) :=
  st.sent.toList.map (fun m => m.1.getD 2 [])

/-- The invariant of the Producer loop when every reopen succeeds: what has been handed
to `send` is the start of the cyclic stream, and while the loop runs the stream is good
and the lines still to come in this round complete the round. -/
def replay_inv (file : List Byte) (r : generator_run_state) : Prop :=
  ∃ j, sent_payloads r <+: replay (nonempty_lines file) j ∧
    (r.terminated = false → ∃ rest, r.state.ifs = good_stream rest ∧
      sent_payloads r ++ nonempty_lines rest = replay (nonempty_lines file) j)

/-! ## `double` arithmetic -/

/-- Rounding of a rational to the nearest integer, a tie going to the even integer. -/
def round_half_even (x : ℚ) : ℤ :=
  if x - (⌊x⌋ : ℚ) < 1 / 2 then ⌊x⌋
  else if 1 / 2 < x - (⌊x⌋ : ℚ) then ⌊x⌋ + 1
  else if ⌊x⌋ % 2 = 0 then ⌊x⌋ else ⌊x⌋ + 1

/-- Rounding of a rational to the nearest `double` (binary64: 53 significant bits, round
to nearest, ties to even). For `q` with `2 ^ e ≤ |q| < 2 ^ (e + 1)` the doubles around `q`
are the multiples of `2 ^ (e - 52)`. The exponent range is left out: the loop forms no
value of magnitude `2 ^ 1024` short of `2 ^ 900` messages in one window, and a non-zero
quotient of two of its values has magnitude at least `2 ^ (-64)`. -/
def round_double (q : ℚ) : ℚ :=
  if q = 0 then 0
  else (round_half_even (q / 2 ^ (Int.log 2 |q| - 52)) : ℚ) * 2 ^ (Int.log 2 |q| - 52)

/-- Conversion of a 64-bit integer (`time_t`, `suseconds_t`, `size_t`) to `double`. -/
def to_double (z : Int) : ℚ := round_double (z : ℚ)

/-- The operator `+` on two `double` values. -/
def double_add (a b : ℚ) : ℚ := round_double (a + b)

/-- The operator `*` on two `double` values. -/
def double_mul (a b : ℚ) : ℚ := round_double (a * b)

/-- The result of a `double` division. A non-zero divisor gives the quotient rounded to
a `double`; a zero divisor does not trap: it gives a NaN for `0 / 0` and an infinity
otherwise. -/
inductive double_value where
  | finite (q : ℚ)
  | infinite (negative : Bool)
  | nan
deriving DecidableEq

/-- The operator `/` on two `double` values. -/
def double_div (a b : ℚ) : double_value :=
  if b = 0 then
    if a = 0 then double_value.nan else double_value.infinite (decide (a < 0))
  else double_value.finite (round_double (a / b))

/-! ## The Consumer: `consumer_thread` -/

/-- The variables of `consumer_thread::operator()` (lines 123-135). A `double` variable
holds the rational its value denotes. -/
structure consumer_state where
  tv1 : timeval
  tv2 : timeval
  line : List Byte
  count : Nat
  last_items : Nat
  last_tv : Int
  running_diff : ℚ
  time_diff : ℚ
deriving DecidableEq

/-- What one pass of the Consumer loop takes from outside: the value of
`poller.poll(100)`, the value of `poller.has_input(_socket)`, the message
`_socket.receive` delivers, and the time `gettimeofday` reads. -/
structure consumer_env where
  poll : Bool
  has_input : Bool
  message : message_t
  now : timeval
deriving DecidableEq

/-- Modelled from the spec: the poller (zmqpp) is not part of the repository. The
inbound channel is a `try_receive(timeout) -> Option<bytes>`, and the poller of lines
120-121 holds `_socket` alone: a poll that reports an event reports input on that
socket. -/
def poller_contract (env : consumer_env) : Prop :=
  env.poll = true → env.has_input = true

instance (env : consumer_env) : Decidable (poller_contract env) := by
  unfold poller_contract; infer_instance

/-- The locals of the report block (lines 171-174); `ips` and `latency` are printed. -/
structure report where
  items : ℚ
  ips : double_value
  latency : double_value
deriving DecidableEq

/-- The result of one pass of the Consumer loop: the variables, the report printed (if
any), and whether an exception left the loop. -/
structure consumer_step where
  state : consumer_state
  report : Option report
  thrown : Bool
deriving DecidableEq

/-- Lines 149-153 for one message: the value of `running_diff` after the two `+=`,
each difference taken on 64-bit integers before it becomes a `double`. -/
def accumulated (running_diff : ℚ) (tv2 tv1 : timeval) : ℚ :=
  double_add
    (double_add running_diff
      (double_mul 1000000 (to_double (wrap64 (tv2.tv_sec - tv1.tv_sec)))))
    (to_double (wrap64 (tv2.tv_usec - tv1.tv_usec)))

/-- The message-arrived branch (lines 143-155). The three reads of line 146 run in
order, each storing its value; a read that fails raises an error, which nothing in the
loop catches, so the rest of the branch does not run. The flag of the result tells
whether an error was raised. -/
def receive_message (env : consumer_env) (s : consumer_state) : consumer_state × Bool :=
  match get_int64 env.message 0 with
  | none => (s, true)
  | some sec =>
    let s1 := { s with tv1 := { s.tv1 with tv_sec := sec } }
    match get_int64 env.message 1 with
    | none => (s1, true)
    | some usec =>
      let s2 := { s1 with tv1 := { s1.tv1 with tv_usec := usec } }
      match get_string env.message 2 with
      | none => (s2, true)
      | some l =>
        let s3 := { s2 with line := l, tv2 := env.now }
        let sec_diff : ℚ := to_double (wrap64 (s3.tv2.tv_sec - s3.tv1.tv_sec))
        let usec_diff : ℚ := to_double (wrap64 (s3.tv2.tv_usec - s3.tv1.tv_usec))
        let scaled : ℚ := double_mul 1000000 sec_diff
        let s4 := { s3 with running_diff := double_add s3.running_diff scaled }
        let s5 := { s4 with running_diff := double_add s4.running_diff usec_diff }
        ({ s5 with count := s5.count + 1 }, false)

/-- The window check (lines 168-182), run at the end of every pass that no exception
left. `last_items` never exceeds `count`, so the `size_t` difference is the natural
number difference. -/
def window_check (s : consumer_state) : consumer_step :=
  let time_diff : ℚ := to_double (wrap64 (s.tv2.tv_sec - s.last_tv))
  if 0 < time_diff then
    let items : ℚ := to_double ((s.count - s.last_items : Nat) : Int)
    let ips := double_div items time_diff
    let latency := double_div s.running_diff items
    { state := { s with time_diff := time_diff, last_items := s.count,
                        last_tv := s.tv2.tv_sec, running_diff := 0 },
      report := some { items := items, ips := ips, latency := latency },
      thrown := false }
  else
    { state := { s with time_diff := time_diff }, report := none, thrown := false }

/-- The three ways through lines 139-166. -/
inductive branch where
  | message_arrived
  | no_input
  | timeout
deriving DecidableEq, Repr

/-- The branch of lines 139-166 a pass takes. -/
def branch_taken (env : consumer_env) : branch :=
  if env.poll then
    if env.has_input then branch.message_arrived else branch.no_input
  else branch.timeout

/-- One pass through the body of `while (_running)` in `consumer_thread::operator()`
(lines 139-182). -/
def consumer_iteration (env : consumer_env) (s : consumer_state) : consumer_step :=
  if env.poll then
    if env.has_input then
      let r := receive_message env s
      if r.2 then { state := r.1, report := none, thrown := true }
      else window_check r.1
    else
      window_check s
  else
    window_check { s with tv2 := env.now }

/-- The state of a running Consumer loop between two passes. -/
structure consumer_run_state where
  state : consumer_state
  reports : List report
  terminated : Bool
deriving DecidableEq

/-- The first `n` passes of the Consumer loop; `env i` is what pass number `i` (counted
from zero) takes from outside. Once an exception has left the loop no further pass
runs. -/
def consumer_run (env : Nat → consumer_env) :
    Nat → consumer_run_state → consumer_run_state
  | 0, r => r
  | n + 1, r =>
    let p := consumer_run env n r
    if p.terminated then p
    else
      let st := consumer_iteration (env n) p.state
      { state := st.state,
        reports := p.reports ++ st.report.toList,
        terminated := st.thrown }

/-- The Consumer when it enters its loop (lines 123-135): `start` is the value of
`std::time(NULL)`; `tv1` and `tv2` are not initialised and hold whatever they hold. -/
def consumer_init (start : Int) (tv1 tv2 : timeval) : consumer_run_state :=
  { state := { tv1 := tv1, tv2 := tv2, line := [], count := 0, last_items := 0,
               last_tv := start, running_diff := 0, time_diff := 0 },
    reports := [], terminated := false }

/-- Specification side: the latency of a message sent at `tv1` and observed at `tv2`,
the difference of the two instants in microseconds. -/
def exact_latency (tv2 tv1 : timeval) : Int :=
  1000000 * (tv2.tv_sec - tv1.tv_sec) + (tv2.tv_usec - tv1.tv_usec)

/-- Specification side: the latency of the message a pass receives and decodes, as a
list of at most one value: empty when the pass receives no message or the message does
not decode. -/
def received_latency (env : consumer_env) : List Int :=
  if env.poll && env.has_input then
    match decode_message env.message with
    | some (tv1, _) => [exact_latency env.now tv1]
    | none => []
  else []

/-- Specification side: the latencies of the messages received since the last report
(or since the start), after `n` passes. A pass that reports empties the list: the
message it received, if any, is part of that report. -/
def pending (env : Nat → consumer_env) (init : consumer_run_state) : Nat → List Int
  | 0 => []
  | n + 1 =>
    let p := consumer_run env n init
    if p.terminated then pending env init n
    else if (consumer_iteration (env n) p.state).report.isSome then []
    else pending env init n ++ received_latency (env n)

/-- Specification side: the number of messages received and decoded in the first `n`
passes. -/
def received (env : Nat → consumer_env) (init : consumer_run_state) : Nat → Nat
  | 0 => 0
  | n + 1 =>
    if (consumer_run env n init).terminated then received env init n
    else received env init n + (received_latency (env n)).length

/-- Specification side: the clock second of the last pass that printed a report among
the first `n` passes, or the second at which the loop was entered if none did. -/
def last_report_second (env : Nat → consumer_env) (init : consumer_run_state) : Nat → Int
  | 0 => init.state.last_tv
  | n + 1 =>
    let p := consumer_run env n init
    if p.terminated then last_report_second env init n
    else if (consumer_iteration (env n) p.state).report.isSome then (env n).now.tv_sec
    else last_report_second env init n

/-- Specification side: adding the message sent at `tv1` and observed at `tv2` to a
cumulative latency of `sum` microseconds stays within the integers every `double`
holds exactly, at each step of lines 149-153. -/
def exact_sum (sum : Int) (tv2 tv1 : timeval) : Prop :=
  |sum| < 2 ^ 53 ∧ |1000000 * (tv2.tv_sec - tv1.tv_sec)| < 2 ^ 53 ∧
    |tv2.tv_usec - tv1.tv_usec| < 2 ^ 53 ∧
    |sum + 1000000 * (tv2.tv_sec - tv1.tv_sec)| < 2 ^ 53 ∧
    |sum + exact_latency tv2 tv1| < 2 ^ 53

instance (sum : Int) (tv2 tv1 : timeval) : Decidable (exact_sum sum tv2 tv1) := by
  unfold exact_sum; infer_instance

/-- What `gettimeofday` returns: seconds in the 64-bit range, microseconds below one
million. -/
def valid_timeval (tv : timeval) : Prop :=
  is_int64 tv.tv_sec ∧ 0 ≤ tv.tv_usec ∧ tv.tv_usec < 1000000

instance (tv : timeval) : Decidable (valid_timeval tv) := by
  unfold valid_timeval; infer_instance

/-- A Consumer that entered its loop at second 100. -/
def sample_consumer : consumer_state :=
  (consumer_init 100 ⟨0, 0⟩ ⟨0, 0⟩).state

/-- A pass that receives a three-frame message stamped `(100, 999999)` and observes
it at `(101, 5)`. -/
def sample_arrival : consumer_env :=
  { poll := true, has_input := true, message := make_message ⟨100, 999999⟩ [104, 105],
    now := ⟨101, 5⟩ }

/-- A pass that receives a message of only two frames. -/
def short_arrival : consumer_env :=
  { poll := true, has_input := true, message := [encode_int64 100, encode_int64 0],
    now := ⟨100, 10⟩ }

/-- A malformed message first, well-formed messages afterwards. -/
def malformed_then_good (i : Nat) : consumer_env :=
  if i = 0 then short_arrival else sample_arrival

/-- A pass that receives a well-formed message whose microseconds frame holds one
million. -/
def unchecked_arrival : consumer_env :=
  { poll := true, has_input := true,
    message := [encode_int64 100, encode_int64 1000000, [120]], now := ⟨100, 10⟩ }

/-- A pass whose poll times out, one second after `sample_consumer` started. -/
def idle_timeout : consumer_env :=
  { poll := false, has_input := false, message := [], now := ⟨101, 0⟩ }

/-- A data file of two lines, `a` and `b`, each terminated by a newline. -/
def two_line_file : List Byte := [97, 10, 98, 10]

/-- The first send cannot be queued and returns `false`; later sends succeed. -/
def first_send_blocked (i : Nat) : generator_env :=
  { now := ⟨100, 0⟩, send := if i = 0 then send_result.would_block else send_result.sent,
    open_ok := true }

/-- The first send raises an error; later sends would succeed. -/
def first_send_fails (i : Nat) : generator_env :=
  { now := ⟨100, 0⟩, send := if i = 0 then send_result.throws else send_result.sent,
    open_ok := true }

/-- Every send succeeds and every reopen succeeds. -/
def all_sent (_i : Nat) : generator_env :=
  { now := ⟨100, 0⟩, send := send_result.sent, open_ok := true }

/-- One thousand passes that each receive a message stamped `(100, 0)`: the first 999
are observed at `(100, 0)`, the last one at `(101, 0)`. -/
def thousand_arrivals (i : Nat) : consumer_env :=
  { poll := true, has_input := true, message := make_message ⟨100, 0⟩ [120],
    now := if i < 999 then ⟨100, 0⟩ else ⟨101, 0⟩ }

/-- The report for 1000 messages in one second with a total latency of one second. -/
def thousand_report : report :=
  { items := 1000, ips := double_value.finite 1000, latency := double_value.finite 1000 }

/-- The Consumer variables while `thousand_arrivals` is under way, after `k` passes. -/
def thousand_state (k : Nat) : consumer_state :=
  { tv1 := ⟨100, 0⟩, tv2 := ⟨100, 0⟩, line := if k = 0 then [] else [120], count := k,
    last_items := 0, last_tv := 100, running_diff := 0, time_diff := 0 }


/-- Every pass receives a message stamped `(103, 0)` and observes it at `(103, 0)`. -/
def slow_arrivals (_i : Nat) : consumer_env :=
  { poll := true, has_input := true, message := make_message ⟨103, 0⟩ [120],
    now := ⟨103, 0⟩ }

/-- The report for one message in a window of three seconds. -/
def slow_report : report :=
  { items := 1, ips := double_value.finite (6004799503160661 / 2 ^ 54),
    latency := double_value.finite 0 }

/-! ## Wire format lemmas -/

theorem decode_encode_int64 (v : Int) (h : is_int64 v) :
    decode_int64 (encode_int64 v) = some v := by
  obtain ⟨h1, h2⟩ := h
  simp only [encode_int64, decode_int64, Fin.ofNat]
  congr 1
  split_ifs with hlt <;> omega

/-! ## Producer lemmas -/

theorem splitOn_extract_line (r : List Byte) :
    r.splitOn newline = (extract_line r).1 ::
      (if (extract_line r).2.2 then [] else (extract_line r).2.1.splitOn newline) := by
  induction r with
  | nil => simp [extract_line, List.splitOn, List.splitOnP_nil]
  | cons c cs ih =>
    unfold List.splitOn at *
    rw [List.splitOnP_cons]
    by_cases h : c = newline
    · simp [extract_line, h]
    · simp [extract_line, h, ih, List.modifyHead]

theorem nonempty_lines_extract (r : List Byte) :
    nonempty_lines r = (if (extract_line r).1 ≠ [] then [(extract_line r).1] else []) ++
      (if (extract_line r).2.2 then [] else nonempty_lines (extract_line r).2.1) := by
  unfold nonempty_lines file_lines
  rw [splitOn_extract_line r]
  by_cases h1 : (extract_line r).1 = [] <;> by_cases h2 : (extract_line r).2.2 = true <;>
    simp [h1, h2, List.filter_cons]

theorem extract_line_length (r : List Byte) (h : (extract_line r).2.2 = false) :
    (extract_line r).2.1.length < r.length := by
  induction r with
  | nil => simp [extract_line] at h
  | cons c cs ih =>
    by_cases hc : c = newline
    · simp [extract_line, hc]
    · simp only [extract_line, hc, if_false] at h ⊢
      have := ih h
      simp only [List.length_cons]
      omega

theorem generator_iteration_payload (file r line : List Byte) (rl : Nat)
    (env : generator_env) :
    step_payload (generator_iteration file env ⟨good_stream r, line, rl⟩) =
      if (extract_line r).1 ≠ [] then [(extract_line r).1] else [] := by
  by_cases h : (extract_line r).1 = []
  · simp [step_payload, generator_iteration, getline, good_stream, h]
  · cases hs : env.send <;>
      simp [step_payload, generator_iteration, getline, good_stream, h, hs, make_message]

theorem generator_iteration_thrown (file r line : List Byte) (rl : Nat)
    (env : generator_env) :
    (generator_iteration file env ⟨good_stream r, line, rl⟩).thrown =
      decide ((extract_line r).1 ≠ [] ∧ env.send = send_result.throws) := by
  by_cases h : (extract_line r).1 = []
  · simp [generator_iteration, getline, good_stream, h]
  · cases hs : env.send <;>
      simp [generator_iteration, getline, good_stream, h, hs]

theorem generator_iteration_stream (file r line : List Byte) (rl : Nat)
    (env : generator_env) (hopen : env.open_ok = true)
    (hthrown : (generator_iteration file env ⟨good_stream r, line, rl⟩).thrown = false) :
    (generator_iteration file env ⟨good_stream r, line, rl⟩).state.ifs =
      good_stream (if (extract_line r).2.2 then file else (extract_line r).2.1) := by
  rw [generator_iteration_thrown] at hthrown
  by_cases h : (extract_line r).1 = []
  · by_cases he : (extract_line r).2.2 = true <;>
      simp [generator_iteration, getline, good_stream, h, he, restart_on_eof,
        ifstream_open, ifstream_close, hopen]
  · cases hs : env.send
    · by_cases he : (extract_line r).2.2 = true <;>
        simp [generator_iteration, getline, good_stream, h, he, hs, restart_on_eof,
          ifstream_open, ifstream_close, hopen]
    · by_cases he : (extract_line r).2.2 = true <;>
        simp [generator_iteration, getline, good_stream, h, he, hs, restart_on_eof,
          ifstream_open, ifstream_close, hopen]
    · simp [h, hs] at hthrown

theorem replay_succ (lines : List (List Byte)) (j : Nat) :
    replay lines (j + 1) = replay lines j ++ lines := by
  simp [replay, List.replicate_succ', List.flatten_append]

theorem replay_length (lines : List (List Byte)) (j : Nat) :
    (replay lines j).length = j * lines.length := by
  induction j with
  | zero => simp [replay]
  | succ j ih => rw [replay_succ, List.length_append, ih]; ring

theorem replay_getElem (lines : List (List Byte)) (j k : Nat)
    (h : k < (replay lines j).length) :
    (replay lines j)[k]? = lines[k % lines.length]? := by
  induction j with
  | zero => simp [replay] at h
  | succ j ih =>
    rw [replay_succ] at h ⊢
    rw [List.getElem?_append]
    by_cases hk : k < (replay lines j).length
    · simp [hk, ih hk]
    · simp only [hk, if_false]
      rw [replay_length] at hk ⊢
      rw [List.length_append, replay_length] at h
      have h1 : k - j * lines.length < lines.length := by omega
      have h2 : k % lines.length = k - j * lines.length := by
        have hk2 : k = (k - j * lines.length) + lines.length * j := by
          rw [Nat.mul_comm lines.length j]; omega
        conv_lhs => rw [hk2]
        rw [Nat.add_mul_mod_self_left, Nat.mod_eq_of_lt h1]
      rw [h2]

theorem sent_payloads_step (file : List Byte) (env : Nat → generator_env) (n : Nat)
    (r : generator_run_state) (h : (generator_run file env n r).terminated = false) :
    sent_payloads (generator_run file env (n + 1) r) =
      sent_payloads (generator_run file env n r) ++
        step_payload (generator_iteration file (env n) (generator_run file env n r).state) := by
  simp [generator_run, h, sent_payloads, step_payload]

theorem replay_inv_run (file : List Byte) (garbage : Nat) (env : Nat → generator_env)
    (hopen : ∀ i, (env i).open_ok = true) (n : Nat) :
    replay_inv file (generator_run file env n (generator_init file garbage)) := by
  induction n with
  | zero =>
    refine ⟨1, ?_, fun _ => ⟨file, rfl, ?_⟩⟩
    · simp [generator_run, generator_init, sent_payloads]
    · simp [generator_run, generator_init, sent_payloads, replay]
  | succ n ih =>
    by_cases ht : (generator_run file env n (generator_init file garbage)).terminated = true
    · have : generator_run file env (n + 1) (generator_init file garbage) =
          generator_run file env n (generator_init file garbage) := by
        simp [generator_run, ht]
      rw [this]; exact ih
    · have ht2 : (generator_run file env n (generator_init file garbage)).terminated = false := by
        simpa using ht
      obtain ⟨j, _, hgood⟩ := ih
      obtain ⟨rest, hifs, heq⟩ := hgood ht2
      have hpay := sent_payloads_step file env n (generator_init file garbage) ht2
      generalize hp : generator_run file env n (generator_init file garbage) = p at *
      obtain ⟨⟨ifs, line, rl⟩, sends, term⟩ := p
      simp only at hifs ht2
      subst hifs
      have hP := generator_iteration_payload file rest line rl (env n)
      have hT := generator_iteration_thrown file rest line rl (env n)
      have hS := generator_iteration_stream file rest line rl (env n) (hopen n)
      have hN := nonempty_lines_extract rest
      have hterm : (generator_run file env (n + 1) (generator_init file garbage)).terminated =
          (generator_iteration file (env n) ⟨good_stream rest, line, rl⟩).thrown := by
        simp [generator_run, hp, ht2]
      have hstate : (generator_run file env (n + 1) (generator_init file garbage)).state =
          (generator_iteration file (env n) ⟨good_stream rest, line, rl⟩).state := by
        simp [generator_run, hp, ht2]
      simp only at hpay
      rw [hP] at hpay
      by_cases hthr : (generator_iteration file (env n) ⟨good_stream rest, line, rl⟩).thrown = true
      · refine ⟨j, ?_, ?_⟩
        · rw [hpay, ← heq, hN, ← List.append_assoc]
          exact List.prefix_append _ _
        · intro h; rw [hterm, hthr] at h; cases h
      · have hthr2 : (generator_iteration file (env n) ⟨good_stream rest, line, rl⟩).thrown
            = false := by simpa using hthr
        have hS2 := hS hthr2
        by_cases he : (extract_line rest).2.2 = true
        · refine ⟨j + 1, ?_, fun _ => ⟨file, ?_, ?_⟩⟩
          · rw [replay_succ, ← heq, hpay, hN]
            simp [he]
          · rw [hstate, hS2]; simp [he]
          · rw [replay_succ, ← heq, hpay, hN]
            simp [he]
        · refine ⟨j, ?_, fun _ => ⟨(extract_line rest).2.1, ?_, ?_⟩⟩
          · rw [← heq, hpay, hN, ← List.append_assoc]
            exact List.prefix_append _ _
          · rw [hstate, hS2]; simp [he]
          · rw [← heq, hpay, hN]
            simp [he]

theorem generator_run_add (file : List Byte) (env : Nat → generator_env) (m n : Nat)
    (r : generator_run_state) :
    generator_run file env (m + n) r =
      generator_run file (fun i => env (m + i)) n (generator_run file env m r) := by
  induction n with
  | zero => rfl
  | succ n ih =>
    show generator_run file env (m + n + 1) r = _
    simp only [generator_run, ih]

theorem generator_pass (file : List Byte) :
    ∀ (k : Nat) (r : List Byte), r.length ≤ k → ∀ (env : Nat → generator_env),
      (∀ i, (env i).open_ok = true) → (∀ i, (env i).send ≠ send_result.throws) →
      ∀ (line : List Byte) (rl : Nat) (sends : List (message_t × send_result)),
      ∃ n line2 rl2 sends2,
        generator_run file env n ⟨⟨good_stream r, line, rl⟩, sends, false⟩ =
          ⟨⟨good_stream file, line2, rl2⟩, sends2, false⟩ ∧
        sends2.length = sends.length + (nonempty_lines r).length := by
  intro k
  induction k with
  | zero =>
    intro r hr env hopen hsend line rl sends
    have hr0 : r = [] := List.length_eq_zero.mp (Nat.le_zero.mp hr)
    subst hr0
    refine ⟨1, [], rl, sends, ?_, ?_⟩
    · simp [generator_run, generator_iteration, getline, good_stream, extract_line,
        restart_on_eof, ifstream_open, ifstream_close, hopen]
    · simp [nonempty_lines, file_lines, List.splitOn, List.splitOnP_nil]
  | succ k ih =>
    intro r hr env hopen hsend line rl sends
    have hP := generator_iteration_payload file r line rl (env 0)
    have hT := generator_iteration_thrown file r line rl (env 0)
    have hthr : (generator_iteration file (env 0) ⟨good_stream r, line, rl⟩).thrown = false := by
      rw [hT]; simp [hsend 0]
    have hS := generator_iteration_stream file r line rl (env 0) (hopen 0) hthr
    have hN := nonempty_lines_extract r
    have hlen : (generator_iteration file (env 0) ⟨good_stream r, line, rl⟩).sent.toList.length
        = (if (extract_line r).1 ≠ [] then [(extract_line r).1] else []).length := by
      rw [← hP]; simp [step_payload]
    generalize hst : generator_iteration file (env 0) ⟨good_stream r, line, rl⟩ = st at *
    obtain ⟨⟨ifs1, line1, rl1⟩, sent1, thr1⟩ := st
    simp only at hthr hS hlen
    subst hthr
    have hone : generator_run file env 1 ⟨⟨good_stream r, line, rl⟩, sends, false⟩ =
        ⟨⟨ifs1, line1, rl1⟩, sends ++ sent1.toList, false⟩ := by
      simp [generator_run, hst]
    by_cases he : (extract_line r).2.2 = true
    · refine ⟨1, line1, rl1, sends ++ sent1.toList, ?_, ?_⟩
      · rw [hone, hS]; simp [he]
      · rw [List.length_append, hlen, hN]; simp [he]
    · have he2 : (extract_line r).2.2 = false := by simpa using he
      have hlt := extract_line_length r he2
      obtain ⟨n, line2, rl2, sends2, hrun, hcount⟩ :=
        ih (extract_line r).2.1 (by omega) (fun i => env (1 + i)) (fun i => hopen _)
          (fun i => hsend _) line1 rl1 (sends ++ sent1.toList)
      refine ⟨1 + n, line2, rl2, sends2, ?_, ?_⟩
      · rw [generator_run_add, hone, hS]
        simp only [he2]
        exact hrun
      · rw [hcount, List.length_append, hlen, hN]
        simp [he2]
        omega

theorem generator_rounds (file : List Byte) (garbage : Nat) (env : Nat → generator_env)
    (hopen : ∀ i, (env i).open_ok = true) (hsend : ∀ i, (env i).send ≠ send_result.throws)
    (j : Nat) :
    ∃ n line rl sends,
      generator_run file env n (generator_init file garbage) =
        ⟨⟨good_stream file, line, rl⟩, sends, false⟩ ∧
      sends.length = j * (nonempty_lines file).length := by
  induction j with
  | zero => exact ⟨0, [], garbage, [], rfl, by simp⟩
  | succ j ih =>
    obtain ⟨n, line, rl, sends, hrun, hcount⟩ := ih
    obtain ⟨m, line2, rl2, sends2, hrun2, hcount2⟩ :=
      generator_pass file file.length file (Nat.le_refl _) (fun i => env (n + i))
        (fun i => hopen _) (fun i => hsend _) line rl sends
    refine ⟨n + m, line2, rl2, sends2, ?_, ?_⟩
    · rw [generator_run_add, hrun]; exact hrun2
    · rw [hcount2, hcount]; ring

/-! ## `double` lemmas -/

theorem round_half_even_intCast (m : ℤ) : round_half_even (m : ℚ) = m := by
  unfold round_half_even
  rw [Int.floor_intCast, sub_self, if_pos (by norm_num)]

theorem round_double_zero : round_double 0 = 0 := by
  unfold round_double
  rw [if_pos rfl]

theorem round_double_at (q : ℚ) (e : ℤ) (h1 : (2 : ℚ) ^ e ≤ |q|) (h2 : |q| < (2 : ℚ) ^ (e + 1)) :
    round_double q = (round_half_even (q / 2 ^ (e - 52)) : ℚ) * 2 ^ (e - 52) := by
  have hpos : 0 < |q| := lt_of_lt_of_le (zpow_pos (by norm_num) e) h1
  have hq : q ≠ 0 := abs_pos.mp hpos
  have hlog : Int.log 2 |q| = e := by
    have a : e ≤ Int.log 2 |q| := (Int.zpow_le_iff_le_log (by norm_num) hpos).mp (by exact_mod_cast h1)
    have b : Int.log 2 |q| < e + 1 := (Int.lt_zpow_iff_log_lt (by norm_num) hpos).mp (by exact_mod_cast h2)
    omega
  unfold round_double
  rw [if_neg hq, hlog]

theorem round_double_intCast (z : ℤ) (h : |z| < 2 ^ 53) : round_double (z : ℚ) = z := by
  by_cases hz : z = 0
  · rw [hz]; exact round_double_zero
  have hq : (z : ℚ) ≠ 0 := by exact_mod_cast hz
  have hpos : (0 : ℚ) < |(z : ℚ)| := abs_pos.mpr hq
  have hlt : |(z : ℚ)| < ((2 : ℕ) : ℚ) ^ (53 : ℤ) := by
    have : ((|z| : ℤ) : ℚ) < ((2 ^ 53 : ℤ) : ℚ) := by exact_mod_cast h
    rw [Int.cast_abs] at this
    norm_num at this ⊢
    exact this
  have hlog : Int.log 2 |(z : ℚ)| < 53 := (Int.lt_zpow_iff_log_lt (by norm_num) hpos).mp hlt
  obtain ⟨n, hn⟩ : ∃ n : ℕ, (n : ℤ) = 52 - Int.log 2 |(z : ℚ)| :=
    ⟨(52 - Int.log 2 |(z : ℚ)|).toNat, Int.toNat_of_nonneg (by omega)⟩
  have hexp : Int.log 2 |(z : ℚ)| - 52 = -(n : ℤ) := by omega
  unfold round_double
  rw [if_neg hq, hexp, zpow_neg, zpow_natCast, div_inv_eq_mul]
  have hcast : (z : ℚ) * 2 ^ n = ((z * 2 ^ n : ℤ) : ℚ) := by push_cast; ring
  rw [hcast, round_half_even_intCast]
  push_cast
  field_simp

theorem round_half_even_pos (x : ℚ) (h : 1 ≤ x) : 0 < round_half_even x := by
  have hf : 1 ≤ ⌊x⌋ := Int.le_floor.mpr (by exact_mod_cast h)
  unfold round_half_even
  split_ifs <;> omega

theorem round_half_even_nonpos (x : ℚ) (h : x < 0) : round_half_even x ≤ 0 := by
  have hf : ⌊x⌋ < 0 := Int.floor_lt.mpr (by exact_mod_cast h)
  unfold round_half_even
  split_ifs <;> omega

theorem round_double_pos (q : ℚ) (h : 0 < q) : 0 < round_double q := by
  have hq : q ≠ 0 := ne_of_gt h
  have habs : |q| = q := abs_of_pos h
  have hle : ((2 : ℕ) : ℚ) ^ Int.log 2 |q| ≤ |q| :=
    Int.zpow_log_le_self (by norm_num) (by rw [habs]; exact h)
  have hulp : (0 : ℚ) < 2 ^ (Int.log 2 |q| - 52) := zpow_pos (by norm_num) _
  have hmono : (2 : ℚ) ^ (Int.log 2 |q| - 52) ≤ 2 ^ Int.log 2 |q| :=
    zpow_le_zpow_right₀ (by norm_num) (by omega)
  have hx : 1 ≤ q / 2 ^ (Int.log 2 |q| - 52) := by
    rw [le_div_iff₀ hulp, one_mul]
    calc (2 : ℚ) ^ (Int.log 2 |q| - 52) ≤ 2 ^ Int.log 2 |q| := hmono
      _ ≤ |q| := by exact_mod_cast hle
      _ = q := habs
  unfold round_double
  rw [if_neg hq]
  have := round_half_even_pos _ hx
  have hc : (0 : ℚ) < (round_half_even (q / 2 ^ (Int.log 2 |q| - 52)) : ℚ) := by exact_mod_cast this
  exact mul_pos hc hulp

theorem round_double_nonpos (q : ℚ) (h : q ≤ 0) : round_double q ≤ 0 := by
  by_cases hq : q = 0
  · rw [hq, round_double_zero]
  have hneg : q < 0 := lt_of_le_of_ne h hq
  have hulp : (0 : ℚ) < 2 ^ (Int.log 2 |q| - 52) := zpow_pos (by norm_num) _
  have hx : q / 2 ^ (Int.log 2 |q| - 52) < 0 := div_neg_of_neg_of_pos hneg hulp
  unfold round_double
  rw [if_neg hq]
  have := round_half_even_nonpos _ hx
  have hc : (round_half_even (q / 2 ^ (Int.log 2 |q| - 52)) : ℚ) ≤ 0 := by exact_mod_cast this
  exact mul_nonpos_of_nonpos_of_nonneg hc (le_of_lt hulp)

theorem round_double_third : round_double (1 / 3) = 6004799503160661 / 2 ^ 54 := by
  rw [round_double_at (1 / 3) (-2) (by rw [abs_of_pos (by norm_num)]; norm_num)
    (by rw [abs_of_pos (by norm_num)]; norm_num)]
  have hx : ((1 : ℚ) / 3) / 2 ^ ((-2 : ℤ) - 52) = 18014398509481984 / 3 := by norm_num
  have hfl : ⌊(18014398509481984 / 3 : ℚ)⌋ = 6004799503160661 := by
    rw [Int.floor_eq_iff]; norm_num
  rw [hx]
  unfold round_half_even
  rw [hfl]
  norm_num

theorem to_double_exact (z : ℤ) (h : |z| < 2 ^ 53) : to_double z = (z : ℚ) :=
  round_double_intCast z h

theorem to_double_pos_iff (z : ℤ) : 0 < to_double z ↔ 0 < z := by
  unfold to_double
  constructor
  · intro h
    by_contra hz
    have hle : (z : ℚ) ≤ 0 := by exact_mod_cast not_lt.mp hz
    exact absurd h (not_lt.mpr (round_double_nonpos _ hle))
  · intro h
    exact round_double_pos _ (by exact_mod_cast h)

theorem double_div_of_ne_zero (a b : ℚ) (h : b ≠ 0) :
    double_div a b = double_value.finite (round_double (a / b)) := by
  unfold double_div
  rw [if_neg h]

theorem double_div_zero_zero : double_div 0 0 = double_value.nan := by
  unfold double_div
  rw [if_pos rfl, if_pos rfl]

theorem double_div_zero_not_finite (a q : ℚ) : double_div a 0 ≠ double_value.finite q := by
  unfold double_div
  rw [if_pos rfl]
  split_ifs <;> exact fun h => by cases h

theorem wrap64_of_is_int64 (x : Int) (h : is_int64 x) : wrap64 x = x := by
  obtain ⟨h1, h2⟩ := h
  unfold wrap64
  omega

theorem wrap64_of_abs_lt (x : Int) (h : |x| < 2 ^ 53) : wrap64 x = x := by
  have h1 := abs_lt.mp h
  exact wrap64_of_is_int64 x ⟨by omega, by omega⟩

theorem accumulated_exact (sum : ℤ) (tv2 tv1 : timeval) (h : exact_sum sum tv2 tv1) :
    accumulated (sum : ℚ) tv2 tv1 = ((sum + exact_latency tv2 tv1 : ℤ) : ℚ) := by
  obtain ⟨_, h2, h3, h4, h5⟩ := h
  have hsec : |tv2.tv_sec - tv1.tv_sec| < 2 ^ 53 := by
    have a := abs_lt.mp h2
    exact abs_lt.mpr ⟨by omega, by omega⟩
  unfold accumulated double_add double_mul
  rw [wrap64_of_abs_lt _ hsec, wrap64_of_abs_lt _ h3, to_double_exact _ hsec,
    to_double_exact _ h3]
  have e1 : (1000000 : ℚ) * ((tv2.tv_sec - tv1.tv_sec : ℤ) : ℚ) =
      ((1000000 * (tv2.tv_sec - tv1.tv_sec) : ℤ) : ℚ) := by push_cast; ring
  rw [e1, round_double_intCast _ h2]
  have e2 : (sum : ℚ) + ((1000000 * (tv2.tv_sec - tv1.tv_sec) : ℤ) : ℚ) =
      ((sum + 1000000 * (tv2.tv_sec - tv1.tv_sec) : ℤ) : ℚ) := by push_cast; ring
  rw [e2, round_double_intCast _ h4]
  have e3 : ((sum + 1000000 * (tv2.tv_sec - tv1.tv_sec) : ℤ) : ℚ)
      + ((tv2.tv_usec - tv1.tv_usec : ℤ) : ℚ) =
      ((sum + exact_latency tv2 tv1 : ℤ) : ℚ) := by
    unfold exact_latency; push_cast; ring
  rw [e3, round_double_intCast _ h5]

/-! ## Consumer lemmas -/

theorem receive_message_decoded (env : consumer_env) (s : consumer_state)
    (tv1 : timeval) (l : List Byte) (h : decode_message env.message = some (tv1, l)) :
    receive_message env s =
      ({ s with tv1 := tv1, line := l, tv2 := env.now,
                running_diff := accumulated s.running_diff env.now tv1,
                count := s.count + 1 }, false) := by
  unfold decode_message at h
  unfold receive_message
  cases h0 : get_int64 env.message 0 with
  | none => simp [h0] at h
  | some sec =>
    cases h1 : get_int64 env.message 1 with
    | none => simp [h0, h1] at h
    | some usec =>
      cases h2 : get_string env.message 2 with
      | none => simp [h0, h1, h2] at h
      | some l2 =>
        simp only [h0, h1, h2, Option.some.injEq, Prod.mk.injEq] at h
        obtain ⟨htv, hl⟩ := h
        subst htv hl
        rfl

theorem receive_message_malformed (env : consumer_env) (s : consumer_state)
    (h : decode_message env.message = none) :
    (receive_message env s).2 = true ∧
      (receive_message env s).1.count = s.count ∧
      (receive_message env s).1.running_diff = s.running_diff ∧
      (receive_message env s).1.last_items = s.last_items ∧
      (receive_message env s).1.last_tv = s.last_tv ∧
      (receive_message env s).1.tv2 = s.tv2 := by
  unfold decode_message at h
  unfold receive_message
  cases h0 : get_int64 env.message 0 with
  | none => simp
  | some sec =>
    cases h1 : get_int64 env.message 1 with
    | none => simp
    | some usec =>
      cases h2 : get_string env.message 2 with
      | none => simp
      | some l2 => simp [h0, h1, h2] at h

theorem window_check_report (s : consumer_state)
    (h : 0 < wrap64 (s.tv2.tv_sec - s.last_tv)) :
    window_check s =
      { state := { s with time_diff := to_double (wrap64 (s.tv2.tv_sec - s.last_tv)),
                          last_items := s.count, last_tv := s.tv2.tv_sec,
                          running_diff := 0 },
        report := some
          { items := to_double ((s.count - s.last_items : Nat) : Int),
            ips := double_div (to_double ((s.count - s.last_items : Nat) : Int))
              (to_double (wrap64 (s.tv2.tv_sec - s.last_tv))),
            latency := double_div s.running_diff
              (to_double ((s.count - s.last_items : Nat) : Int)) },
        thrown := false } := by
  have hq : (0 : ℚ) < to_double (wrap64 (s.tv2.tv_sec - s.last_tv)) :=
    (to_double_pos_iff _).mpr h
  unfold window_check
  simp only [hq, if_true]

theorem window_check_quiet (s : consumer_state)
    (h : ¬ 0 < wrap64 (s.tv2.tv_sec - s.last_tv)) :
    window_check s =
      { state := { s with time_diff := to_double (wrap64 (s.tv2.tv_sec - s.last_tv)) },
        report := none, thrown := false } := by
  have hq : ¬ (0 : ℚ) < to_double (wrap64 (s.tv2.tv_sec - s.last_tv)) :=
    fun hc => h ((to_double_pos_iff _).mp hc)
  unfold window_check
  simp only [hq, if_false]

theorem window_check_keeps (s : consumer_state) :
    (window_check s).thrown = false ∧ (window_check s).state.tv2 = s.tv2 ∧
      (window_check s).state.time_diff = to_double (wrap64 (s.tv2.tv_sec - s.last_tv)) ∧
      (window_check s).state.count = s.count := by
  by_cases h : 0 < wrap64 (s.tv2.tv_sec - s.last_tv)
  · rw [window_check_report s h]; exact ⟨rfl, rfl, rfl, rfl⟩
  · rw [window_check_quiet s h]; exact ⟨rfl, rfl, rfl, rfl⟩

theorem window_check_after_report (t : consumer_state)
    (h : (window_check t).report.isSome = true) :
    0 < wrap64 (t.tv2.tv_sec - t.last_tv) ∧
      (window_check t).state.running_diff = 0 ∧
      (window_check t).state.last_items = (window_check t).state.count ∧
      (window_check t).state.last_tv = (window_check t).state.tv2.tv_sec := by
  by_cases hb : 0 < wrap64 (t.tv2.tv_sec - t.last_tv)
  · rw [window_check_report t hb]
    exact ⟨hb, rfl, rfl, rfl⟩
  · rw [window_check_quiet t hb] at h
    cases h

theorem consumer_iteration_timeout (e : consumer_env) (s : consumer_state)
    (hp : e.poll = false) :
    consumer_iteration e s = window_check { s with tv2 := e.now } := by
  unfold consumer_iteration
  rw [if_neg (by rw [hp]; exact Bool.false_ne_true)]

theorem consumer_iteration_no_input (e : consumer_env) (s : consumer_state)
    (hp : e.poll = true) (hi : e.has_input = false) :
    consumer_iteration e s = window_check s := by
  unfold consumer_iteration
  rw [if_pos hp, if_neg (by rw [hi]; exact Bool.false_ne_true)]

theorem consumer_iteration_decoded (e : consumer_env) (s : consumer_state)
    (hp : e.poll = true) (hi : e.has_input = true) (tv1 : timeval) (l : List Byte)
    (hd : decode_message e.message = some (tv1, l)) :
    consumer_iteration e s =
      window_check { s with tv1 := tv1, line := l, tv2 := e.now,
                            running_diff := accumulated s.running_diff e.now tv1,
                            count := s.count + 1 } := by
  unfold consumer_iteration
  rw [if_pos hp, if_pos hi, receive_message_decoded e s tv1 l hd]
  rfl

theorem consumer_iteration_malformed (e : consumer_env) (s : consumer_state)
    (hp : e.poll = true) (hi : e.has_input = true)
    (hd : decode_message e.message = none) :
    consumer_iteration e s =
      { state := (receive_message e s).1, report := none, thrown := true } := by
  unfold consumer_iteration
  rw [if_pos hp, if_pos hi]
  have h := (receive_message_malformed e s hd).1
  simp only [h, if_true]

theorem received_latency_decoded (e : consumer_env)
    (hp : e.poll = true) (hi : e.has_input = true) (tv1 : timeval) (l : List Byte)
    (hd : decode_message e.message = some (tv1, l)) :
    received_latency e = [exact_latency e.now tv1] := by
  unfold received_latency
  rw [hp, hi, hd]
  rfl

theorem received_latency_none (e : consumer_env)
    (h : e.poll = false ∨ e.has_input = false ∨ decode_message e.message = none) :
    received_latency e = [] := by
  unfold received_latency
  rcases h with h | h | h
  · rw [h]; rfl
  · rw [h, Bool.and_false]; rfl
  · rw [h]; split_ifs <;> rfl

theorem decode_make_message (tv : timeval) (l : List Byte)
    (hs : is_int64 tv.tv_sec) (hu : is_int64 tv.tv_usec) :
    decode_message (make_message tv l) = some (tv, l) := by
  simp [decode_message, make_message, get_int64, get_string,
    decode_encode_int64 _ hs, decode_encode_int64 _ hu]

theorem generator_iteration_sent (file : List Byte) (env : generator_env)
    (s : generator_state) (m : message_t) (r : send_result)
    (h : (generator_iteration file env s).sent = some (m, r)) :
    m = make_message env.now (getline s.ifs s.line).2 ∧ r = env.send := by
  unfold generator_iteration at h
  by_cases hl : (getline s.ifs s.line).2 = []
  · simp [hl] at h
  · cases hs : env.send <;> simp [hl, hs] at h <;> simp [h.1, h.2]

theorem consumer_run_terminated (env : Nat → consumer_env) (r : consumer_run_state) (n : Nat)
    (h : (consumer_run env n r).terminated = true) (m : Nat) :
    consumer_run env (n + m) r = consumer_run env n r := by
  induction m with
  | zero => rfl
  | succ m ih =>
    show consumer_run env (n + m + 1) r = _
    simp only [consumer_run, ih, h, if_true]

theorem generator_run_terminated (file : List Byte) (env : Nat → generator_env)
    (r : generator_run_state) (n : Nat)
    (h : (generator_run file env n r).terminated = true) (m : Nat) :
    generator_run file env (n + m) r = generator_run file env n r := by
  induction m with
  | zero => rfl
  | succ m ih =>
    show generator_run file env (n + m + 1) r = _
    simp only [generator_run, ih, h, if_true]

theorem decode_message_short (m : message_t) (h : m.length < 3) :
    decode_message m = none := by
  have h2 : get_string m 2 = none := by
    unfold get_string
    rw [List.get?_eq_none]
    omega
  unfold decode_message
  cases get_int64 m 0 with
  | none => rfl
  | some a =>
    cases get_int64 m 1 with
    | none => rfl
    | some b => simp only [h2]

theorem decode_message_bad_integer (m : message_t)
    (h : get_int64 m 0 = none ∨ get_int64 m 1 = none) :
    decode_message m = none := by
  unfold decode_message
  rcases h with h | h
  · rw [h]
  · rw [h]
    cases get_int64 m 0 <;> rfl

theorem consumer_run_succ (env : Nat → consumer_env) (init : consumer_run_state) (n : Nat)
    (h : (consumer_run env n init).terminated = false) :
    consumer_run env (n + 1) init =
      { state := (consumer_iteration (env n) (consumer_run env n init).state).state,
        reports := (consumer_run env n init).reports ++
          (consumer_iteration (env n) (consumer_run env n init).state).report.toList,
        terminated := (consumer_iteration (env n) (consumer_run env n init).state).thrown } := by
  simp only [consumer_run, h, Bool.false_eq_true, if_false]

theorem consumer_run_emits (env : Nat → consumer_env) (init : consumer_run_state) (n : Nat)
    (r : report)
    (h : (consumer_run env (n + 1) init).reports = (consumer_run env n init).reports ++ [r]) :
    (consumer_run env n init).terminated = false ∧
      (consumer_iteration (env n) (consumer_run env n init).state).report = some r := by
  by_cases ht : (consumer_run env n init).terminated = true
  · have hsame : consumer_run env (n + 1) init = consumer_run env n init := by
      simp only [consumer_run, ht, if_true]
    rw [hsame] at h
    have hlen := congrArg List.length h
    rw [List.length_append, List.length_singleton] at hlen
    omega
  · have ht2 : (consumer_run env n init).terminated = false := by
      cases hc : (consumer_run env n init).terminated
      · rfl
      · exact absurd hc ht
    refine ⟨ht2, ?_⟩
    have hstep : (consumer_run env (n + 1) init).reports =
        (consumer_run env n init).reports ++
          (consumer_iteration (env n) (consumer_run env n init).state).report.toList := by
      simp only [consumer_run, ht2, Bool.false_eq_true, if_false]
    rw [hstep] at h
    have h2 := List.append_cancel_left h
    cases hr : (consumer_iteration (env n) (consumer_run env n init).state).report with
    | none => rw [hr] at h2; cases h2
    | some q =>
      rw [hr] at h2
      simp only [Option.toList, List.cons.injEq, and_true] at h2
      rw [h2]

theorem generator_iteration_throws (file : List Byte) (env : generator_env)
    (s : generator_state) (m : message_t)
    (h : (generator_iteration file env s).sent = some (m, send_result.throws)) :
    (generator_iteration file env s).thrown = true := by
  unfold generator_iteration at h ⊢
  by_cases hl : (getline s.ifs s.line).2 = []
  · simp [hl] at h
  · cases hs : env.send <;> simp [hl, hs] at h ⊢

theorem generator_iteration_ignores_false (file : List Byte) (now : timeval)
    (open_ok : Bool) (s : generator_state) :
    (generator_iteration file ⟨now, send_result.would_block, open_ok⟩ s).thrown = false ∧
      (generator_iteration file ⟨now, send_result.would_block, open_ok⟩ s).state =
        (generator_iteration file ⟨now, send_result.sent, open_ok⟩ s).state := by
  unfold generator_iteration
  by_cases hl : (getline s.ifs s.line).2 = []
  · simp [hl]
  · simp [hl]

/-- The outcome of a pass of the Consumer loop, branch by branch: either the window check
runs on the variables `t` the branch leaves, or a decode error left the loop. -/
theorem consumer_iteration_cases (e : consumer_env) (s : consumer_state) :
    (∃ t, consumer_iteration e s = window_check t ∧ t.last_tv = s.last_tv ∧
        t.last_items = s.last_items ∧
        t.count = s.count + (received_latency e).length ∧
        (branch_taken e = branch.no_input → t = s) ∧
        (branch_taken e ≠ branch.no_input → t.tv2 = e.now) ∧
        (received_latency e = [] → t.running_diff = s.running_diff) ∧
        (∀ tv1 l, e.poll = true → e.has_input = true →
          decode_message e.message = some (tv1, l) →
            t.running_diff = accumulated s.running_diff e.now tv1)) ∨
      (consumer_iteration e s =
          { state := (receive_message e s).1, report := none, thrown := true } ∧
        e.poll = true ∧ e.has_input = true ∧ decode_message e.message = none) := by
  unfold branch_taken
  by_cases hp : e.poll = true
  · by_cases hi : e.has_input = true
    · cases hd : decode_message e.message with
      | none => exact Or.inr ⟨consumer_iteration_malformed e s hp hi hd, hp, hi, rfl⟩
      | some d =>
        obtain ⟨tv1, l⟩ := d
        have hl := received_latency_decoded e hp hi tv1 l hd
        refine Or.inl ⟨_, consumer_iteration_decoded e s hp hi tv1 l hd, rfl, rfl, ?_, ?_, ?_,
          ?_, ?_⟩
        · rw [hl]; rfl
        · rw [if_pos hp, if_pos hi]; intro h; cases h
        · intro _; rfl
        · intro h; rw [hl] at h; cases h
        · intro tv l2 _ _ h2
          cases h2
          rfl
    · have hi2 : e.has_input = false := by
        cases h : e.has_input
        · rfl
        · exact absurd h hi
      have hl := received_latency_none e (Or.inr (Or.inl hi2))
      refine Or.inl ⟨s, consumer_iteration_no_input e s hp hi2, rfl, rfl, ?_, fun _ => rfl,
        ?_, fun _ => rfl, ?_⟩
      · rw [hl]; rfl
      · rw [if_pos hp, if_neg hi]
        intro h; exact absurd rfl h
      · intro tv l2 _ h2 _
        exact absurd h2 hi
  · have hp2 : e.poll = false := by
      cases h : e.poll
      · rfl
      · exact absurd h hp
    have hl := received_latency_none e (Or.inl hp2)
    refine Or.inl ⟨_, consumer_iteration_timeout e s hp2, rfl, rfl, ?_, ?_, fun _ => rfl,
      fun _ => rfl, ?_⟩
    · rw [hl]; rfl
    · rw [if_neg hp]
      intro h; cases h
    · intro tv l2 h2 _ _
      exact absurd h2 hp

theorem consumer_iteration_after_report (e : consumer_env) (s : consumer_state)
    (h : (consumer_iteration e s).report.isSome = true) :
    (consumer_iteration e s).thrown = false ∧
      (consumer_iteration e s).state.running_diff = 0 ∧
      (consumer_iteration e s).state.last_items = (consumer_iteration e s).state.count ∧
      (consumer_iteration e s).state.last_tv = (consumer_iteration e s).state.tv2.tv_sec ∧
      0 < wrap64 ((consumer_iteration e s).state.tv2.tv_sec - s.last_tv) ∧
      (branch_taken e ≠ branch.no_input →
        (consumer_iteration e s).state.tv2 = e.now) := by
  rcases consumer_iteration_cases e s with ⟨t, ht, hlast, _, _, _, hfresh, _, _⟩ | ⟨hm, _, _, _⟩
  · rw [ht] at h ⊢
    obtain ⟨a, b, c, d⟩ := window_check_after_report t h
    obtain ⟨k1, k2, _, _⟩ := window_check_keeps t
    refine ⟨k1, b, c, d, ?_, ?_⟩
    · rw [k2, ← hlast]; exact a
    · intro hb; rw [k2]; exact hfresh hb
  · rw [hm] at h
    cases h

/-- The counting part of the window accounting, for one pass: `count` grows by the
message received, `count - last_items` follows the number `P` of pending messages, and
a report carries the number of messages of its window. -/
theorem consumer_iteration_counting (e : consumer_env) (s : consumer_state) (P : Nat)
    (h2 : s.last_items + P = s.count) :
    (consumer_iteration e s).state.count = s.count + (received_latency e).length ∧
      (consumer_iteration e s).state.last_items +
        (if (consumer_iteration e s).report.isSome then 0
          else P + (received_latency e).length) = (consumer_iteration e s).state.count ∧
      (∀ r, (consumer_iteration e s).report = some r →
        r.items = to_double ((P + (received_latency e).length : Nat) : Int)) := by
  rcases consumer_iteration_cases e s with ⟨t, ht, _, hitems, hcount, _, _, _, _⟩ |
    ⟨hm, _, _, hd⟩
  · have hsub : t.count - t.last_items = P + (received_latency e).length := by omega
    rw [ht]
    by_cases hb : 0 < wrap64 (t.tv2.tv_sec - t.last_tv)
    · rw [window_check_report t hb]
      refine ⟨hcount, ?_, ?_⟩
      · simp only [Option.isSome_some, if_true, Nat.add_zero]
      · intro r hr
        simp only [Option.some.injEq] at hr
        rw [← hr, hsub]
    · rw [window_check_quiet t hb]
      refine ⟨hcount, ?_, ?_⟩
      · simp only [Option.isSome_none, Bool.false_eq_true, if_false]
        omega
      · intro r hr; cases hr
  · obtain ⟨_, m2, _, m4, _, _⟩ := receive_message_malformed e s hd
    have hl := received_latency_none e (Or.inr (Or.inr hd))
    rw [hm, hl]
    simp only [Option.isSome_none, Bool.false_eq_true, if_false, List.length_nil, Nat.add_zero]
    refine ⟨m2, by rw [m4, m2]; exact h2, ?_⟩
    intro r hr; cases hr

theorem consumer_run_counting (env : Nat → consumer_env) (start : Int) (g1 g2 : timeval)
    (n : Nat) :
    (consumer_run env n (consumer_init start g1 g2)).state.last_items +
        (pending env (consumer_init start g1 g2) n).length =
          (consumer_run env n (consumer_init start g1 g2)).state.count ∧
      (consumer_run env n (consumer_init start g1 g2)).state.count =
        received env (consumer_init start g1 g2) n := by
  induction n with
  | zero => exact ⟨rfl, rfl⟩
  | succ n ih =>
    obtain ⟨i2, i3⟩ := ih
    by_cases ht : (consumer_run env n (consumer_init start g1 g2)).terminated = true
    · simp only [consumer_run, pending, received, ht, if_true]
      exact ⟨i2, i3⟩
    · have ht2 : (consumer_run env n (consumer_init start g1 g2)).terminated = false := by
        cases hc : (consumer_run env n (consumer_init start g1 g2)).terminated
        · rfl
        · exact absurd hc ht
      obtain ⟨a1, a2, _⟩ := consumer_iteration_counting (env n)
        (consumer_run env n (consumer_init start g1 g2)).state
        (pending env (consumer_init start g1 g2) n).length i2
      rw [consumer_run_succ env _ n ht2]
      simp only [pending, received, ht2, Bool.false_eq_true, if_false]
      refine ⟨?_, by rw [a1, i3]⟩
      rw [← a2]
      congr 1
      split_ifs <;> simp

/-- When every poll that reports an event reports input, `last_tv` is the clock second
of the last pass that printed a report, or the entry second of the loop. -/
theorem consumer_run_last_tv (env : Nat → consumer_env) (init : consumer_run_state)
    (n : Nat) (hcontract : ∀ i, i < n → poller_contract (env i)) :
    (consumer_run env n init).state.last_tv = last_report_second env init n := by
  induction n with
  | zero => rfl
  | succ n ih =>
    have i1 := ih (fun i hi => hcontract i (Nat.lt_succ_of_lt hi))
    by_cases ht : (consumer_run env n init).terminated = true
    · simp only [consumer_run, last_report_second, ht, if_true]
      exact i1
    · have ht2 : (consumer_run env n init).terminated = false := by
        cases hc : (consumer_run env n init).terminated
        · rfl
        · exact absurd hc ht
      have hbranch : branch_taken (env n) ≠ branch.no_input := by
        have hc := hcontract n (Nat.lt_succ_self n)
        unfold poller_contract at hc
        unfold branch_taken
        by_cases hp : (env n).poll = true
        · rw [if_pos hp, if_pos (hc hp)]; intro h; cases h
        · rw [if_neg hp]; intro h; cases h
      rw [consumer_run_succ env _ n ht2]
      simp only [last_report_second, ht2, Bool.false_eq_true, if_false]
      by_cases hr : (consumer_iteration (env n) (consumer_run env n init).state).report.isSome
          = true
      · obtain ⟨_, _, _, d, _, f⟩ := consumer_iteration_after_report (env n)
          (consumer_run env n init).state hr
        rw [if_pos hr, d, f hbranch]
      · rw [if_neg hr, ← i1]
        rcases consumer_iteration_cases (env n) (consumer_run env n init).state with
          ⟨t, ht3, hlast, _, _, _, _, _, _⟩ | ⟨hm, _, _, hd⟩
        · rw [ht3] at hr ⊢
          by_cases hb : 0 < wrap64 (t.tv2.tv_sec - t.last_tv)
          · rw [window_check_report t hb] at hr
            exact absurd rfl hr
          · rw [window_check_quiet t hb]
            exact hlast
        · rw [hm]
          exact (receive_message_malformed (env n) (consumer_run env n init).state hd).2.2.2.2.1

theorem last_report_second_bounds (env : Nat → consumer_env) (init : consumer_run_state)
    (lo hi : Int) (hinit : lo ≤ init.state.last_tv ∧ init.state.last_tv < hi)
    (hclock : ∀ i, lo ≤ (env i).now.tv_sec ∧ (env i).now.tv_sec < hi) (n : Nat) :
    lo ≤ last_report_second env init n ∧ last_report_second env init n < hi := by
  induction n with
  | zero => exact hinit
  | succ n ih =>
    simp only [last_report_second]
    split_ifs
    · exact ih
    · exact hclock n
    · exact ih


theorem accumulated_zero (tv2 tv1 : timeval) (h : exact_sum 0 tv2 tv1) :
    accumulated 0 tv2 tv1 = ((exact_latency tv2 tv1 : ℤ) : ℚ) := by
  have := accumulated_exact 0 tv2 tv1 h
  rw [Int.cast_zero, zero_add] at this
  exact this

theorem to_double_zero : to_double 0 = 0 := by
  unfold to_double
  rw [Int.cast_zero, round_double_zero]

theorem to_double_one : to_double 1 = 1 := by
  have := to_double_exact 1 (by decide)
  rw [this]; norm_num

theorem thousand_decode (i : Nat) :
    decode_message (thousand_arrivals i).message = some (⟨100, 0⟩, [120]) :=
  decode_make_message ⟨100, 0⟩ [120] (by decide) (by decide)

theorem thousand_start (k : Nat) (hk : k ≤ 999) :
    consumer_run thousand_arrivals k (consumer_init 100 ⟨100, 0⟩ ⟨100, 0⟩) =
      { state := thousand_state k, reports := [], terminated := false } := by
  induction k with
  | zero => rfl
  | succ k ih =>
    have hlt : k < 999 := by omega
    have hnow : (thousand_arrivals k).now = ⟨100, 0⟩ := by
      simp only [thousand_arrivals, hlt, if_true]
    have hstep : consumer_run thousand_arrivals (k + 1) (consumer_init 100 ⟨100, 0⟩ ⟨100, 0⟩) =
        { state := (consumer_iteration (thousand_arrivals k) (thousand_state k)).state,
          reports := [] ++ (consumer_iteration (thousand_arrivals k)
            (thousand_state k)).report.toList,
          terminated := (consumer_iteration (thousand_arrivals k) (thousand_state k)).thrown } := by
      rw [consumer_run_succ _ _ k (by rw [ih (by omega)]), ih (by omega)]
    have hlat : accumulated 0 (⟨100, 0⟩ : timeval) ⟨100, 0⟩ = 0 := by
      rw [accumulated_zero _ _ (by decide)]
      have : exact_latency (⟨100, 0⟩ : timeval) ⟨100, 0⟩ = 0 := by decide
      rw [this]; norm_num
    have hquiet : ¬ 0 < wrap64 ((100 : Int) - 100) := by decide
    have hw : to_double (wrap64 ((100 : Int) - 100)) = 0 := by
      have hw1 : wrap64 ((100 : Int) - 100) = 0 := by decide
      rw [hw1, to_double_zero]
    rw [hstep, consumer_iteration_decoded _ _ rfl rfl ⟨100, 0⟩ [120] (thousand_decode k),
      hnow, window_check_quiet _ hquiet]
    simp only [thousand_state, hlat, Option.toList, List.append_nil,
      Nat.succ_ne_zero, if_false]
    rw [hw]

theorem thousand_final :
    consumer_run thousand_arrivals (999 + 1) (consumer_init 100 ⟨100, 0⟩ ⟨100, 0⟩) =
      { state := { tv1 := ⟨100, 0⟩, tv2 := ⟨101, 0⟩, line := [120], count := 1000,
                   last_items := 1000, last_tv := 101, running_diff := 0, time_diff := 1 },
        reports := [thousand_report], terminated := false } := by
  have hnow : (thousand_arrivals 999).now = ⟨101, 0⟩ := by decide
  have hstep : consumer_run thousand_arrivals (999 + 1) (consumer_init 100 ⟨100, 0⟩ ⟨100, 0⟩) =
      { state := (consumer_iteration (thousand_arrivals 999) (thousand_state 999)).state,
        reports := [] ++ (consumer_iteration (thousand_arrivals 999)
          (thousand_state 999)).report.toList,
        terminated := (consumer_iteration (thousand_arrivals 999) (thousand_state 999)).thrown } := by
    rw [consumer_run_succ _ _ 999 (by rw [thousand_start 999 (le_refl _)]),
      thousand_start 999 (le_refl _)]
  have hlat : accumulated 0 (⟨101, 0⟩ : timeval) ⟨100, 0⟩ = 1000000 := by
    rw [accumulated_zero _ _ (by decide)]
    have : exact_latency (⟨101, 0⟩ : timeval) ⟨100, 0⟩ = 1000000 := by decide
    rw [this]; norm_num
  have hboundary : 0 < wrap64 ((101 : Int) - 100) := by decide
  have hw : to_double (wrap64 ((101 : Int) - 100)) = 1 := by
    have hw1 : wrap64 ((101 : Int) - 100) = 1 := by decide
    rw [hw1, to_double_one]
  have hitems : to_double (((999 + 1 - 0 : Nat)) : Int) = 1000 := by
    have := to_double_exact (((999 + 1 - 0 : Nat)) : Int) (by decide)
    rw [this]; norm_num
  have hround : round_double 1000 = 1000 := by
    have := round_double_intCast 1000 (by decide)
    norm_num at this
    exact this
  have h1 : double_div (1000 : ℚ) 1 = double_value.finite 1000 := by
    rw [double_div_of_ne_zero _ _ one_ne_zero, div_one, hround]
  have h2 : double_div (1000000 : ℚ) 1000 = double_value.finite 1000 := by
    rw [double_div_of_ne_zero _ _ (by norm_num)]
    have : (1000000 : ℚ) / 1000 = 1000 := by norm_num
    rw [this, hround]
  rw [hstep, consumer_iteration_decoded _ _ rfl rfl ⟨100, 0⟩ [120] (thousand_decode 999),
    hnow, window_check_report _ hboundary]
  simp only [thousand_state, hlat, Option.toList, List.nil_append, hw, hitems, h1, h2,
    thousand_report]

theorem thousand_emits :
    (consumer_run thousand_arrivals (999 + 1) (consumer_init 100 ⟨100, 0⟩ ⟨100, 0⟩)).reports =
      (consumer_run thousand_arrivals 999 (consumer_init 100 ⟨100, 0⟩ ⟨100, 0⟩)).reports
        ++ [thousand_report] := by
  rw [thousand_final, thousand_start 999 (le_refl _)]
  rfl

theorem thousand_contract (i : Nat) : poller_contract (thousand_arrivals i) :=
  fun _ => rfl

theorem thousand_clock (i : Nat) :
    0 ≤ (thousand_arrivals i).now.tv_sec ∧ (thousand_arrivals i).now.tv_sec < 2 ^ 63 := by
  unfold thousand_arrivals
  by_cases h : i < 999
  · simp only [h, if_true]; decide
  · simp only [h, if_false]; decide

theorem thousand_pending_length (k : Nat) (hk : k ≤ 999) :
    (pending thousand_arrivals (consumer_init 100 ⟨100, 0⟩ ⟨100, 0⟩) k).length = k := by
  have h := (consumer_run_counting thousand_arrivals 100 ⟨100, 0⟩ ⟨100, 0⟩ k).1
  rw [thousand_start k hk] at h
  simp only [thousand_state] at h
  omega

theorem thousand_window_count :
    (pending thousand_arrivals (consumer_init 100 ⟨100, 0⟩ ⟨100, 0⟩) 999).length
      + (received_latency (thousand_arrivals 999)).length = 1000 := by
  rw [thousand_pending_length 999 (le_refl _),
    received_latency_decoded _ rfl rfl ⟨100, 0⟩ [120] (thousand_decode 999)]
  rfl

theorem thousand_elapsed :
    (thousand_arrivals 999).now.tv_sec
      - last_report_second thousand_arrivals (consumer_init 100 ⟨100, 0⟩ ⟨100, 0⟩) 999 = 1 := by
  rw [← consumer_run_last_tv thousand_arrivals _ 999 (fun i _ => thousand_contract i),
    thousand_start 999 (le_refl _)]
  decide

theorem consumer_iteration_report_value (e : consumer_env) (s : consumer_state) (r : report)
    (h : (consumer_iteration e s).report = some r) :
    r.ips = double_div r.items
      (to_double (wrap64 ((consumer_iteration e s).state.tv2.tv_sec - s.last_tv))) := by
  rcases consumer_iteration_cases e s with ⟨t, ht, hlast, _, _, _, _, _, _⟩ | ⟨hm, _, _, _⟩
  · rw [ht] at h ⊢
    by_cases hb : 0 < wrap64 (t.tv2.tv_sec - t.last_tv)
    · rw [window_check_report t hb] at h ⊢
      simp only [Option.some.injEq] at h
      subst h
      rw [← hlast]
    · rw [window_check_quiet t hb] at h
      cases h
  · rw [hm] at h
    cases h

theorem poller_contract_branch (e : consumer_env) (h : poller_contract e) :
    branch_taken e ≠ branch.no_input ∧
      (branch_taken e = branch.message_arrived ∨ branch_taken e = branch.timeout) := by
  unfold poller_contract at h
  unfold branch_taken
  by_cases hp : e.poll = true
  · rw [if_pos hp, if_pos (h hp)]
    exact ⟨fun hc => branch.noConfusion hc, Or.inl rfl⟩
  · rw [if_neg hp]
    exact ⟨fun hc => branch.noConfusion hc, Or.inr rfl⟩

theorem slow_first_pass :
    consumer_run slow_arrivals 1 (consumer_init 100 ⟨0, 0⟩ ⟨0, 0⟩) =
      { state := { tv1 := ⟨103, 0⟩, tv2 := ⟨103, 0⟩, line := [120], count := 1,
                   last_items := 1, last_tv := 103, running_diff := 0, time_diff := 3 },
        reports := [slow_report], terminated := false } := by
  have hd : decode_message (slow_arrivals 0).message = some (⟨103, 0⟩, [120]) :=
    decode_make_message ⟨103, 0⟩ [120] (by decide) (by decide)
  have hlat : accumulated 0 (⟨103, 0⟩ : timeval) ⟨103, 0⟩ = 0 := by
    rw [accumulated_zero _ _ (by decide)]
    have : exact_latency (⟨103, 0⟩ : timeval) ⟨103, 0⟩ = 0 := by decide
    rw [this]; norm_num
  have hboundary : 0 < wrap64 ((103 : Int) - 100) := by decide
  have hw : to_double (wrap64 ((103 : Int) - 100)) = 3 := by
    have hw1 : wrap64 ((103 : Int) - 100) = 3 := by decide
    have := to_double_exact 3 (by decide)
    rw [hw1, this]; norm_num
  have hitems : to_double (((0 + 1 - 0 : Nat)) : Int) = 1 := to_double_one
  have h1 : double_div (1 : ℚ) 3 = double_value.finite (6004799503160661 / 2 ^ 54) := by
    rw [double_div_of_ne_zero _ _ (by norm_num), round_double_third]
  have h2 : double_div (0 : ℚ) 1 = double_value.finite 0 := by
    rw [double_div_of_ne_zero _ _ one_ne_zero, zero_div, round_double_zero]
  have hstep : consumer_run slow_arrivals 1 (consumer_init 100 ⟨0, 0⟩ ⟨0, 0⟩) =
      { state := (consumer_iteration (slow_arrivals 0)
          (consumer_init 100 ⟨0, 0⟩ ⟨0, 0⟩).state).state,
        reports := [] ++ (consumer_iteration (slow_arrivals 0)
          (consumer_init 100 ⟨0, 0⟩ ⟨0, 0⟩).state).report.toList,
        terminated := (consumer_iteration (slow_arrivals 0)
          (consumer_init 100 ⟨0, 0⟩ ⟨0, 0⟩).state).thrown } :=
    consumer_run_succ slow_arrivals (consumer_init 100 ⟨0, 0⟩ ⟨0, 0⟩) 0 rfl
  rw [hstep, consumer_iteration_decoded _ _ rfl rfl ⟨103, 0⟩ [120] hd,
    window_check_report _ hboundary]
  simp only [consumer_init, slow_arrivals, hlat, Option.toList, List.nil_append, hw, hitems,
    h1, h2, slow_report]

/-- C1: for all signed 64-bit seconds `s` and microseconds `u` and every non-empty line
`l`, whatever bytes it holds, reading the Producer's three-frame message in the
Consumer's order gives back `(s, u, l)`, and the Consumer's message branch stores exactly
these values without raising an error. -/
theorem wire_round_trip (s u : Int) (l : List Byte) (hs : is_int64 s) (hu : is_int64 u)
    (_hl : l ≠ []) (env : consumer_env) (cs : consumer_state)
    (hm : env.message = make_message ⟨s, u⟩ l) :
    decode_message (make_message ⟨s, u⟩ l) = some (⟨s, u⟩, l) ∧
      (receive_message env cs).2 = false ∧
      (receive_message env cs).1.tv1 = ⟨s, u⟩ ∧
      (receive_message env cs).1.line = l := by
  have hd := decode_make_message ⟨s, u⟩ l hs hu
  refine ⟨hd, ?_⟩
  rw [receive_message_decoded env cs ⟨s, u⟩ l (by rw [hm]; exact hd)]
  exact ⟨rfl, rfl, rfl⟩

/-- The round trip of C1 on a message stamped `(-1, 999999)` whose payload holds a newline, a zero byte and the byte 255. -/
theorem wire_round_trip_witness :
    decode_message (make_message ⟨-1, 999999⟩ [10, 0, 255]) =
        some (⟨-1, 999999⟩, [10, 0, 255]) ∧
      (receive_message ⟨true, true, make_message ⟨-1, 999999⟩ [10, 0, 255], ⟨5, 0⟩⟩
        sample_consumer).2 = false ∧
      (receive_message ⟨true, true, make_message ⟨-1, 999999⟩ [10, 0, 255], ⟨5, 0⟩⟩
        sample_consumer).1.tv1 = ⟨-1, 999999⟩ ∧
      (receive_message ⟨true, true, make_message ⟨-1, 999999⟩ [10, 0, 255], ⟨5, 0⟩⟩
        sample_consumer).1.line = [10, 0, 255] :=
  wire_round_trip (-1) 999999 [10, 0, 255] (by decide) (by decide) (by decide)
    ⟨true, true, make_message ⟨-1, 999999⟩ [10, 0, 255], ⟨5, 0⟩⟩ sample_consumer rfl

/-- C2: for every file with `L >= 1` non-empty lines, when every reopen succeeds, the
`k`-th message handed to `send` (counted from zero) carries as payload the
`(k mod L)`-th non-empty line of the file, unmodified, whatever happened to the earlier
sends; and as long as no send raises an error the loop never stops producing: for every
`k` the `k`-th message is sent after finitely many passes. -/
theorem cyclic_replay (file : List Byte) (garbage : Nat) (env : Nat → generator_env)
    (hL : 1 ≤ (nonempty_lines file).length)
    (hopen : ∀ i, (env i).open_ok = true) :
    (∀ n k, k < (sent_payloads (generator_run file env n (generator_init file garbage))).length →
      (sent_payloads (generator_run file env n (generator_init file garbage)))[k]? =
        (nonempty_lines file)[k % (nonempty_lines file).length]?) ∧
    ((∀ i, (env i).send ≠ send_result.throws) →
      ∀ k, ∃ n,
        k < (sent_payloads (generator_run file env n (generator_init file garbage))).length) := by
  constructor
  · intro n k hk
    obtain ⟨j, hpre, _⟩ := replay_inv_run file garbage env hopen n
    have hk2 : k < (replay (nonempty_lines file) j).length :=
      lt_of_lt_of_le hk hpre.length_le
    rw [← replay_getElem (nonempty_lines file) j k hk2]
    rw [List.getElem?_eq_getElem hk, List.getElem?_eq_getElem hk2]
    exact congrArg some (hpre.getElem hk)
  · intro hsend k
    obtain ⟨n, line, rl, sends, hrun, hcount⟩ :=
      generator_rounds file garbage env hopen hsend (k + 1)
    refine ⟨n, ?_⟩
    rw [hrun]
    simp only [sent_payloads, List.length_map, hcount]
    calc k < k + 1 := Nat.lt_succ_self k
      _ = (k + 1) * 1 := (Nat.mul_one _).symm
      _ ≤ (k + 1) * (nonempty_lines file).length := Nat.mul_le_mul_left _ hL

/-- The replay of C2 on the two-line file: the message of index 2 is line `a` again, and a sixth message is reached. -/
theorem cyclic_replay_witness :
    (sent_payloads (generator_run two_line_file all_sent 7
        (generator_init two_line_file 0)))[2]? =
        (nonempty_lines two_line_file)[2 % (nonempty_lines two_line_file).length]? ∧
      (nonempty_lines two_line_file)[2 % (nonempty_lines two_line_file).length]? = some [97] ∧
      ∃ n, 5 < (sent_payloads (generator_run two_line_file all_sent n
        (generator_init two_line_file 0))).length :=
  have T := cyclic_replay two_line_file 0 all_sent (by decide) (fun _ => rfl)
  ⟨T.1 7 2 (by decide), by decide, T.2 (fun _ h => send_result.noConfusion h) 5⟩

/-- C3, as stated, fails: a message of two frames makes the decode fail, and the error
leaves the loop. The count stays 0, but the loop has terminated, and the well-formed
message offered on the next pass is neither decoded nor counted. -/
theorem malformed_message_ends_loop :
    decode_message (malformed_then_good 0).message = none ∧
      decode_message (malformed_then_good 1).message = some (⟨100, 999999⟩, [104, 105]) ∧
      (consumer_run malformed_then_good 1 (consumer_init 100 ⟨0, 0⟩ ⟨0, 0⟩)).terminated = true ∧
      (consumer_run malformed_then_good 2 (consumer_init 100 ⟨0, 0⟩ ⟨0, 0⟩)).terminated = true ∧
      (consumer_run malformed_then_good 2 (consumer_init 100 ⟨0, 0⟩ ⟨0, 0⟩)).state.count = 0 ∧
      (consumer_run malformed_then_good 2 (consumer_init 100 ⟨0, 0⟩ ⟨0, 0⟩)).state.line = [] := by
  have hbad : decode_message (malformed_then_good 0).message = none :=
    decode_message_short _ (by decide)
  have hgood : decode_message (malformed_then_good 1).message =
      some (⟨100, 999999⟩, [104, 105]) :=
    decode_make_message ⟨100, 999999⟩ [104, 105] (by decide) (by decide)
  have hstep : consumer_run malformed_then_good 1 (consumer_init 100 ⟨0, 0⟩ ⟨0, 0⟩) =
      { state := (receive_message (malformed_then_good 0) (consumer_init 100 ⟨0, 0⟩ ⟨0, 0⟩).state).1,
        reports := [], terminated := true } := by
    have h1 : consumer_run malformed_then_good 1 (consumer_init 100 ⟨0, 0⟩ ⟨0, 0⟩) =
        { state := (consumer_iteration (malformed_then_good 0)
            (consumer_init 100 ⟨0, 0⟩ ⟨0, 0⟩).state).state,
          reports := [] ++ (consumer_iteration (malformed_then_good 0)
            (consumer_init 100 ⟨0, 0⟩ ⟨0, 0⟩).state).report.toList,
          terminated := (consumer_iteration (malformed_then_good 0)
            (consumer_init 100 ⟨0, 0⟩ ⟨0, 0⟩).state).thrown } := rfl
    rw [h1, consumer_iteration_malformed _ _ rfl rfl hbad]
    rfl
  have hterm : (consumer_run malformed_then_good 1
      (consumer_init 100 ⟨0, 0⟩ ⟨0, 0⟩)).terminated = true := by rw [hstep]
  have hfrozen := consumer_run_terminated malformed_then_good
    (consumer_init 100 ⟨0, 0⟩ ⟨0, 0⟩) 1 hterm 1
  obtain ⟨_, m2, _, _, _, _⟩ := receive_message_malformed (malformed_then_good 0)
    (consumer_init 100 ⟨0, 0⟩ ⟨0, 0⟩).state hbad
  have hline : (receive_message (malformed_then_good 0)
      (consumer_init 100 ⟨0, 0⟩ ⟨0, 0⟩).state).1.line = [] := by
    have hs : get_string (malformed_then_good 0).message 2 = none := by decide
    unfold receive_message
    cases get_int64 (malformed_then_good 0).message 0 with
    | none => rfl
    | some a =>
      cases get_int64 (malformed_then_good 0).message 1 with
      | none => rfl
      | some b => simp only [hs]; rfl
  refine ⟨hbad, hgood, hterm, ?_, ?_, ?_⟩
  · rw [show (2 : Nat) = 1 + 1 from rfl, hfrozen]; exact hterm
  · rw [show (2 : Nat) = 1 + 1 from rfl, hfrozen, hstep]; exact m2
  · rw [show (2 : Nat) = 1 + 1 from rfl, hfrozen, hstep]; exact hline

/-- C3, amended: for every message received by the Consumer that has fewer than three
fields, or whose first or second field cannot be read as an integer, the decode fails
and the error leaves the loop: that pass prints no report and changes neither the
message count nor the cumulative latency, the loop is terminated, and no later pass runs,
whatever arrives afterwards. -/
theorem malformed_message_terminates (env : Nat → consumer_env) (init : consumer_run_state)
    (n : Nat) (hrun : (consumer_run env n init).terminated = false)
    (hp : (env n).poll = true) (hi : (env n).has_input = true)
    (hbad : (env n).message.length < 3 ∨ get_int64 (env n).message 0 = none ∨
      get_int64 (env n).message 1 = none) :
    decode_message (env n).message = none ∧
      (consumer_run env (n + 1) init).terminated = true ∧
      (consumer_run env (n + 1) init).state.count = (consumer_run env n init).state.count ∧
      (consumer_run env (n + 1) init).state.running_diff =
        (consumer_run env n init).state.running_diff ∧
      (consumer_run env (n + 1) init).reports = (consumer_run env n init).reports ∧
      (∀ m, consumer_run env (n + 1 + m) init = consumer_run env (n + 1) init) := by
  have hd : decode_message (env n).message = none := by
    rcases hbad with h | h | h
    · exact decode_message_short _ h
    · exact decode_message_bad_integer _ (Or.inl h)
    · exact decode_message_bad_integer _ (Or.inr h)
  have hstep : consumer_run env (n + 1) init =
      { state := (receive_message (env n) (consumer_run env n init).state).1,
        reports := (consumer_run env n init).reports ++ [],
        terminated := true } := by
    simp only [consumer_run, hrun, Bool.false_eq_true, if_false,
      consumer_iteration_malformed _ _ hp hi hd, Option.toList]
  obtain ⟨_, m2, m3, _, _, _⟩ := receive_message_malformed (env n)
    (consumer_run env n init).state hd
  have hterm : (consumer_run env (n + 1) init).terminated = true := by rw [hstep]
  refine ⟨hd, hterm, ?_, ?_, ?_, fun m => consumer_run_terminated env init (n + 1) hterm m⟩
  · rw [hstep]; exact m2
  · rw [hstep]; exact m3
  · rw [hstep]; exact List.append_nil _

/-- The amended C3 on a two-frame message arriving at the first pass. -/
theorem malformed_message_terminates_witness :
    decode_message (malformed_then_good 0).message = none ∧
      (consumer_run malformed_then_good 1 (consumer_init 100 ⟨0, 0⟩ ⟨0, 0⟩)).terminated = true ∧
      (consumer_run malformed_then_good 1 (consumer_init 100 ⟨0, 0⟩ ⟨0, 0⟩)).state.count = 0 ∧
      (consumer_run malformed_then_good 1 (consumer_init 100 ⟨0, 0⟩ ⟨0, 0⟩)).state.running_diff
        = 0 ∧
      (consumer_run malformed_then_good 1 (consumer_init 100 ⟨0, 0⟩ ⟨0, 0⟩)).reports = [] ∧
      consumer_run malformed_then_good (0 + 1 + 5) (consumer_init 100 ⟨0, 0⟩ ⟨0, 0⟩) =
        consumer_run malformed_then_good (0 + 1) (consumer_init 100 ⟨0, 0⟩ ⟨0, 0⟩) :=
  have T := malformed_message_terminates malformed_then_good
    (consumer_init 100 ⟨0, 0⟩ ⟨0, 0⟩) 0 rfl rfl rfl (Or.inl (by decide))
  ⟨T.1, T.2.1, T.2.2.1, T.2.2.2.1, T.2.2.2.2.1, T.2.2.2.2.2 5⟩

/-- C4, as stated, fails: on a two-line file, the first send returns `false` (the
message could not be queued); the loop does not terminate, the message is dropped, and
the next pass reads and sends the next line. -/
theorem blocked_send_is_ignored :
    (generator_run two_line_file first_send_blocked 2
        (generator_init two_line_file 0)).terminated = false ∧
      (generator_run two_line_file first_send_blocked 2
        (generator_init two_line_file 0)).sends =
        [(make_message ⟨100, 0⟩ [97], send_result.would_block),
         (make_message ⟨100, 0⟩ [98], send_result.sent)] := by
  constructor <;> rfl

/-- C4, amended: when a pass hands a message to `send` and `send` raises an error, the
Producer loop terminates and no later pass runs, so no later line is read or sent and
the message is not retried; when `send` instead returns `false`, the return value is not
looked at: the loop goes on exactly as after a successful send, and the message is
dropped. -/
theorem send_failure_modes (file : List Byte) (env : Nat → generator_env)
    (init : generator_run_state) (n : Nat) (m : message_t) (r : send_result)
    (hrun : (generator_run file env n init).terminated = false)
    (hsent : (generator_iteration file (env n) (generator_run file env n init).state).sent
      = some (m, r)) :
    (generator_run file env (n + 1) init).sends =
        (generator_run file env n init).sends ++ [(m, r)] ∧
      (r = send_result.throws →
        (generator_run file env (n + 1) init).terminated = true ∧
        ∀ k, generator_run file env (n + 1 + k) init = generator_run file env (n + 1) init) ∧
      (r = send_result.would_block →
        (generator_run file env (n + 1) init).terminated = false ∧
        (generator_run file env (n + 1) init).state =
          (generator_iteration file ⟨(env n).now, send_result.sent, (env n).open_ok⟩
            (generator_run file env n init).state).state) := by
  have hstep : generator_run file env (n + 1) init =
      { state := (generator_iteration file (env n) (generator_run file env n init).state).state,
        sends := (generator_run file env n init).sends ++
          (generator_iteration file (env n) (generator_run file env n init).state).sent.toList,
        terminated :=
          (generator_iteration file (env n) (generator_run file env n init).state).thrown } := by
    simp only [generator_run, hrun, Bool.false_eq_true, if_false]
  obtain ⟨_, hr⟩ := generator_iteration_sent file (env n) _ m r hsent
  refine ⟨by rw [hstep, hsent]; rfl, ?_, ?_⟩
  · intro hthrows
    rw [hthrows] at hsent
    have hterm : (generator_run file env (n + 1) init).terminated = true := by
      rw [hstep]
      exact generator_iteration_throws file (env n) _ m hsent
    exact ⟨hterm, fun k => generator_run_terminated file env init (n + 1) hterm k⟩
  · intro hblock
    have henv : env n = ⟨(env n).now, send_result.would_block, (env n).open_ok⟩ := by
      rw [← hblock, hr]
    obtain ⟨a, b⟩ := generator_iteration_ignores_false file (env n).now (env n).open_ok
      (generator_run file env n init).state
    rw [hstep]
    rw [henv]
    exact ⟨a, b⟩

/-- The amended C4 on the two-line file, once with a first send that raises an error and once with a first send that returns `false`. -/
theorem send_failure_modes_witness :
    ((generator_run two_line_file first_send_fails (0 + 1)
          (generator_init two_line_file 0)).terminated = true ∧
        generator_run two_line_file first_send_fails (0 + 1 + 3)
            (generator_init two_line_file 0) =
          generator_run two_line_file first_send_fails (0 + 1)
            (generator_init two_line_file 0)) ∧
      ((generator_run two_line_file first_send_blocked (0 + 1)
          (generator_init two_line_file 0)).terminated = false ∧
        (generator_run two_line_file first_send_blocked (0 + 1)
          (generator_init two_line_file 0)).state =
          (generator_iteration two_line_file ⟨⟨100, 0⟩, send_result.sent, true⟩
            (generator_init two_line_file 0).state).state) :=
  have T1 := send_failure_modes two_line_file first_send_fails
    (generator_init two_line_file 0) 0 (make_message ⟨100, 0⟩ [97]) send_result.throws
    rfl rfl
  have T2 := send_failure_modes two_line_file first_send_blocked
    (generator_init two_line_file 0) 0 (make_message ⟨100, 0⟩ [97]) send_result.would_block
    rfl rfl
  ⟨⟨(T1.2.1 rfl).1, (T1.2.1 rfl).2 3⟩, T2.2.2 rfl⟩

/-- C5, as stated, fails: the quotient is not guarded. At a window boundary with no
message since the last report, a report is printed whose rate is `0 / 1 = 0` and whose
latency is the result of the division `0 / 0`, a NaN. -/
theorem zero_traffic_divides_by_zero :
    sample_consumer.count - sample_consumer.last_items = 0 ∧
      (consumer_iteration idle_timeout sample_consumer).report =
        some { items := 0, ips := double_value.finite 0, latency := double_div 0 0 } ∧
      double_div 0 0 = double_value.nan := by
  refine ⟨rfl, ?_, double_div_zero_zero⟩
  rw [consumer_iteration_timeout idle_timeout sample_consumer rfl,
    window_check_report _ (by decide)]
  have hcount : to_double ((({ sample_consumer with tv2 := idle_timeout.now }).count
      - ({ sample_consumer with tv2 := idle_timeout.now }).last_items : Nat) : Int) = 0 :=
    to_double_zero
  have hw : wrap64 (({ sample_consumer with tv2 := idle_timeout.now }).tv2.tv_sec
      - ({ sample_consumer with tv2 := idle_timeout.now }).last_tv) = 1 := by decide
  have hrd : ({ sample_consumer with tv2 := idle_timeout.now }).running_diff = 0 := rfl
  rw [hcount, hw, hrd, to_double_one, double_div_of_ne_zero 0 1 one_ne_zero, zero_div,
    round_double_zero]

/-- C5, amended: at every window boundary at which no message was received since the
previous report (`count - last_items = 0`), the window check prints a report with
`items = 0` and rate `0`; its latency is the unguarded quotient `running_diff / 0`,
which is never a finite number and is a NaN when `running_diff` is `0`; the window is
then reset as after any report. -/
theorem zero_traffic_report (s : consumer_state)
    (hzero : s.count - s.last_items = 0)
    (hboundary : 0 < wrap64 (s.tv2.tv_sec - s.last_tv)) :
    (window_check s).thrown = false ∧
      (window_check s).report =
        some { items := 0, ips := double_value.finite 0,
               latency := double_div s.running_diff 0 } ∧
      (∀ q, double_div s.running_diff 0 ≠ double_value.finite q) ∧
      (s.running_diff = 0 → double_div s.running_diff 0 = double_value.nan) ∧
      (window_check s).state.running_diff = 0 ∧
      (window_check s).state.last_items = s.count ∧
      (window_check s).state.last_tv = s.tv2.tv_sec := by
  have hq : (0 : ℚ) < to_double (wrap64 (s.tv2.tv_sec - s.last_tv)) :=
    (to_double_pos_iff _).mpr hboundary
  rw [window_check_report s hboundary, hzero]
  refine ⟨rfl, ?_, fun q => double_div_zero_not_finite _ q, ?_, rfl, rfl, rfl⟩
  · rw [Nat.cast_zero, to_double_zero, double_div_of_ne_zero 0 _ (ne_of_gt hq), zero_div,
      round_double_zero]
  · intro h0; rw [h0]; exact double_div_zero_zero

/-- The amended C5 on a Consumer started at second 100 and observed at second 101 with
no message in between. -/
theorem zero_traffic_report_witness :
    (window_check { sample_consumer with tv2 := ⟨101, 0⟩ }).thrown = false ∧
      (window_check { sample_consumer with tv2 := ⟨101, 0⟩ }).report =
        some { items := 0, ips := double_value.finite 0,
               latency := double_div 0 0 } ∧
      double_div (0 : ℚ) 0 = double_value.nan ∧
      (window_check { sample_consumer with tv2 := ⟨101, 0⟩ }).state.running_diff = 0 ∧
      (window_check { sample_consumer with tv2 := ⟨101, 0⟩ }).state.last_items = 0 ∧
      (window_check { sample_consumer with tv2 := ⟨101, 0⟩ }).state.last_tv = 101 :=
  have T := zero_traffic_report { sample_consumer with tv2 := ⟨101, 0⟩ } rfl (by decide)
  ⟨T.1, T.2.1, T.2.2.2.1 rfl, T.2.2.2.2.1, T.2.2.2.2.2.1, T.2.2.2.2.2.2⟩

/-- C7, as stated, fails on the exact quotient: with one message received in a window of
three elapsed seconds the printed rate is the `double` nearest to one third,
`6004799503160661 / 2 ^ 54`, not `1 / 3`. -/
theorem rate_is_a_rounded_quotient :
    (consumer_run slow_arrivals (0 + 1) (consumer_init 100 ⟨0, 0⟩ ⟨0, 0⟩)).reports =
        (consumer_run slow_arrivals 0 (consumer_init 100 ⟨0, 0⟩ ⟨0, 0⟩)).reports
          ++ [slow_report] ∧
      (pending slow_arrivals (consumer_init 100 ⟨0, 0⟩ ⟨0, 0⟩) 0).length
        + (received_latency (slow_arrivals 0)).length = 1 ∧
      (slow_arrivals 0).now.tv_sec
        - last_report_second slow_arrivals (consumer_init 100 ⟨0, 0⟩ ⟨0, 0⟩) 0 = 3 ∧
      slow_report.ips = double_value.finite (6004799503160661 / 2 ^ 54) ∧
      slow_report.ips ≠ double_value.finite (1 / 3) := by
  refine ⟨?_, ?_, by decide, rfl, ?_⟩
  · show (consumer_run slow_arrivals 1 (consumer_init 100 ⟨0, 0⟩ ⟨0, 0⟩)).reports = _
    rw [slow_first_pass]
    rfl
  · have hd : decode_message (slow_arrivals 0).message = some (⟨103, 0⟩, [120]) :=
      decode_make_message ⟨103, 0⟩ [120] (by decide) (by decide)
    rw [received_latency_decoded _ rfl rfl ⟨103, 0⟩ [120] hd]
    rfl
  · intro h
    have h2 : (6004799503160661 : ℚ) / 2 ^ 54 = 1 / 3 := by
      unfold slow_report at h
      simpa using h
    norm_num at h2

/-- C7, amended: when every poll that reports an event reports input and the clock reads
non-negative 64-bit seconds, at every report the Consumer prints, the elapsed seconds
`T` (the clock second of the pass minus the clock second of the previous report, or of
the start) are at least 1, so the division is never by zero; the item count of the
report is the number `N` of messages received since the previous report; and, `N` and
`T` being below `2 ^ 53`, the printed rate is the `double` nearest to `N / T`, which is
`N / T` itself when that is a whole number: with 1000 messages and 1 elapsed second
the printed rate is 1000. -/
theorem throughput_report (env : Nat → consumer_env) (start : Int) (g1 g2 : timeval)
    (n : Nat) (r : report)
    (hcontract : ∀ i, poller_contract (env i))
    (hstart : 0 ≤ start ∧ start < 2 ^ 63)
    (hclock : ∀ i, 0 ≤ (env i).now.tv_sec ∧ (env i).now.tv_sec < 2 ^ 63)
    (hemit : (consumer_run env (n + 1) (consumer_init start g1 g2)).reports =
      (consumer_run env n (consumer_init start g1 g2)).reports ++ [r])
    (hN : (pending env (consumer_init start g1 g2) n).length
      + (received_latency (env n)).length < 2 ^ 53)
    (hT : (env n).now.tv_sec - last_report_second env (consumer_init start g1 g2) n < 2 ^ 53) :
    1 ≤ (env n).now.tv_sec - last_report_second env (consumer_init start g1 g2) n ∧
      r.items = (((pending env (consumer_init start g1 g2) n).length
        + (received_latency (env n)).length : Nat) : ℚ) ∧
      r.ips = double_value.finite (round_double
        ((((pending env (consumer_init start g1 g2) n).length
          + (received_latency (env n)).length : Nat) : ℚ) /
          (((env n).now.tv_sec
            - last_report_second env (consumer_init start g1 g2) n : Int) : ℚ))) ∧
      (∀ k : Nat, (pending env (consumer_init start g1 g2) n).length
          + (received_latency (env n)).length =
            k * ((env n).now.tv_sec
              - last_report_second env (consumer_init start g1 g2) n).toNat →
        r.ips = double_value.finite (k : ℚ)) ∧
      ((pending env (consumer_init start g1 g2) n).length
          + (received_latency (env n)).length = 1000 →
        (env n).now.tv_sec - last_report_second env (consumer_init start g1 g2) n = 1 →
        r.ips = double_value.finite 1000) := by
  obtain ⟨hrun, hrep⟩ := consumer_run_emits env _ n r hemit
  have hsome : (consumer_iteration (env n)
      (consumer_run env n (consumer_init start g1 g2)).state).report.isSome = true := by
    rw [hrep]; rfl
  obtain ⟨_, _, _, _, hpos, hfresh⟩ := consumer_iteration_after_report (env n)
    (consumer_run env n (consumer_init start g1 g2)).state hsome
  have hips := consumer_iteration_report_value (env n)
    (consumer_run env n (consumer_init start g1 g2)).state r hrep
  obtain ⟨_, _, hitems⟩ := consumer_iteration_counting (env n)
    (consumer_run env n (consumer_init start g1 g2)).state
    (pending env (consumer_init start g1 g2) n).length
    (consumer_run_counting env start g1 g2 n).1
  have hitems2 := hitems r hrep
  have hlast := consumer_run_last_tv env (consumer_init start g1 g2) n
    (fun i _ => hcontract i)
  have hb := last_report_second_bounds env (consumer_init start g1 g2) 0 (2 ^ 63)
    hstart hclock n
  rw [hfresh (poller_contract_branch _ (hcontract n)).1, hlast] at hpos hips
  generalize (pending env (consumer_init start g1 g2) n).length
    + (received_latency (env n)).length = N at *
  generalize last_report_second env (consumer_init start g1 g2) n = L at *
  have hc := hclock n
  have hwrap : wrap64 ((env n).now.tv_sec - L) = (env n).now.tv_sec - L :=
    wrap64_of_is_int64 _ ⟨by omega, by omega⟩
  rw [hwrap] at hpos hips
  have hTabs : |(env n).now.tv_sec - L| < 2 ^ 53 := abs_lt.mpr ⟨by omega, hT⟩
  have hNabs : |((N : Nat) : Int)| < 2 ^ 53 := abs_lt.mpr ⟨by omega, by omega⟩
  have hNd : to_double ((N : Nat) : Int) = (N : ℚ) := by
    rw [to_double_exact _ hNabs]; norm_num
  rw [to_double_exact _ hTabs] at hips
  rw [hNd] at hitems2
  have hTne : (((env n).now.tv_sec - L : Int) : ℚ) ≠ 0 := by
    have : (0 : ℚ) < (((env n).now.tv_sec - L : Int) : ℚ) := by exact_mod_cast hpos
    exact ne_of_gt this
  rw [hitems2, double_div_of_ne_zero _ _ hTne] at hips
  refine ⟨by omega, hitems2, hips, ?_, ?_⟩
  · intro k hk
    rw [hips]
    have hTnat : ((((env n).now.tv_sec - L).toNat : Nat) : Int) = (env n).now.tv_sec - L :=
      Int.toNat_of_nonneg (by omega)
    have hTq : ((((env n).now.tv_sec - L).toNat : Nat) : ℚ) =
        (((env n).now.tv_sec - L : Int) : ℚ) := by exact_mod_cast hTnat
    have hq : (N : ℚ) / (((env n).now.tv_sec - L : Int) : ℚ) = ((k : Int) : ℚ) := by
      rw [div_eq_iff hTne, ← hTq, hk]
      push_cast
      ring
    have hkle : k ≤ N := by
      rw [hk]
      have : 1 ≤ ((env n).now.tv_sec - L).toNat := by omega
      exact Nat.le_mul_of_pos_right k this
    have hkabs : |((k : Nat) : Int)| < 2 ^ 53 := abs_lt.mpr ⟨by omega, by omega⟩
    rw [hq, round_double_intCast _ hkabs]
    norm_num
  · intro h1000 h1
    rw [hips, h1000, h1]
    have hround := round_double_intCast 1000 (by decide)
    norm_num at hround ⊢
    exact hround

/-- The report of C7 for exactly 1000 messages received in a window of one elapsed
second: the printed rate is 1000. -/
theorem throughput_report_witness :
    1 ≤ (thousand_arrivals 999).now.tv_sec
        - last_report_second thousand_arrivals (consumer_init 100 ⟨100, 0⟩ ⟨100, 0⟩) 999 ∧
      thousand_report.items =
        (((pending thousand_arrivals (consumer_init 100 ⟨100, 0⟩ ⟨100, 0⟩) 999).length
          + (received_latency (thousand_arrivals 999)).length : Nat) : ℚ) ∧
      (pending thousand_arrivals (consumer_init 100 ⟨100, 0⟩ ⟨100, 0⟩) 999).length
          + (received_latency (thousand_arrivals 999)).length = 1000 ∧
      thousand_report.ips = double_value.finite 1000 :=
  have T := throughput_report thousand_arrivals 100 ⟨100, 0⟩ ⟨100, 0⟩ 999 thousand_report
    thousand_contract (by decide) thousand_clock thousand_emits
    (by rw [thousand_window_count]; decide) (by rw [thousand_elapsed]; decide)
  ⟨T.1, T.2.1, thousand_window_count, T.2.2.2.2 thousand_window_count thousand_elapsed⟩

/-- C8, as stated, fails: the Consumer stores whatever the second frame holds. A
well-formed message whose microseconds frame holds 1000000 is decoded without error and
the decoded microseconds field is 1000000, outside the range. -/
theorem microseconds_not_checked :
    (receive_message unchecked_arrival sample_consumer).2 = false ∧
      (receive_message unchecked_arrival sample_consumer).1.tv1.tv_usec = 1000000 ∧
      ¬ ((receive_message unchecked_arrival sample_consumer).1.tv1.tv_usec < 1000000) := by
  have hd : decode_message unchecked_arrival.message = some (⟨100, 1000000⟩, [120]) :=
    decode_make_message ⟨100, 1000000⟩ [120] (by decide) (by decide)
  rw [receive_message_decoded unchecked_arrival sample_consumer _ _ hd]
  exact ⟨rfl, rfl, by decide⟩

/-- C8, amended: for every message a Producer pass hands to `send`, built from a clock
reading with seconds in the 64-bit range and `0 <= microseconds < 1000000`, the Consumer
decodes it without error, the decoded timestamp is that clock reading, and so the decoded
microseconds field lies in `[0, 1000000)`. -/
theorem producer_microseconds_in_range (file : List Byte) (genv : generator_env)
    (gs : generator_state) (m : message_t) (r : send_result)
    (hsent : (generator_iteration file genv gs).sent = some (m, r))
    (hclock : valid_timeval genv.now)
    (cenv : consumer_env) (cs : consumer_state) (hm : cenv.message = m) :
    (receive_message cenv cs).2 = false ∧
      (receive_message cenv cs).1.tv1 = genv.now ∧
      0 ≤ (receive_message cenv cs).1.tv1.tv_usec ∧
      (receive_message cenv cs).1.tv1.tv_usec < 1000000 := by
  obtain ⟨hsec, hlo, hhi⟩ := hclock
  obtain ⟨hmsg, _⟩ := generator_iteration_sent file genv gs m r hsent
  have hu : is_int64 genv.now.tv_usec := by
    unfold is_int64; constructor <;> omega
  have hd := decode_make_message genv.now (getline gs.ifs gs.line).2 hsec hu
  rw [← hmsg, ← hm] at hd
  rw [receive_message_decoded cenv cs _ _ hd]
  exact ⟨rfl, rfl, hlo, hhi⟩

/-- The amended C8 on the message a Producer pass builds at `(100, 999999)`. -/
theorem producer_microseconds_in_range_witness :
    (receive_message sample_arrival sample_consumer).2 = false ∧
      (receive_message sample_arrival sample_consumer).1.tv1 = ⟨100, 999999⟩ ∧
      0 ≤ (receive_message sample_arrival sample_consumer).1.tv1.tv_usec ∧
      (receive_message sample_arrival sample_consumer).1.tv1.tv_usec < 1000000 :=
  producer_microseconds_in_range [104, 105] ⟨⟨100, 999999⟩, send_result.sent, true⟩
    (generator_init [104, 105] 0).state (make_message ⟨100, 999999⟩ [104, 105])
    send_result.sent (by decide) (by decide) sample_arrival sample_consumer rfl

/-- C9: in every pass of the Consumer loop, whatever the poll returns (a poll that
reports an event reporting input on the only socket it holds), exactly one of the
message-arrived branch and the timeout branch runs; the window check of the pass is
evaluated on a `tv2` read in that same pass (`time_diff` is the `double` of the current
second minus `last_tv`), never on a stale or unset one. The only pass that does not
reach line 147 is one that the decode error of an undecodable message leaves: it is in
the message-arrived branch, evaluates no window check and prints no report. -/
theorem fresh_observation_time (env : consumer_env) (s : consumer_state)
    (hcontract : poller_contract env) :
    (branch_taken env = branch.message_arrived ∨ branch_taken env = branch.timeout) ∧
      ((consumer_iteration env s).thrown = false →
        (consumer_iteration env s).state.tv2 = env.now ∧
        (consumer_iteration env s).state.time_diff =
          to_double (wrap64 (env.now.tv_sec - s.last_tv))) ∧
      ((consumer_iteration env s).thrown = true →
        branch_taken env = branch.message_arrived ∧
        decode_message env.message = none ∧
        (consumer_iteration env s).report = none ∧
        (consumer_iteration env s).state.time_diff = s.time_diff ∧
        (consumer_iteration env s).state.last_tv = s.last_tv) := by
  obtain ⟨hbranch, hone⟩ := poller_contract_branch env hcontract
  refine ⟨hone, ?_, ?_⟩
  · intro hthrown
    rcases consumer_iteration_cases env s with ⟨t, ht, hlast, _, _, _, hfresh, _, _⟩ |
      ⟨hm, _, _, _⟩
    · obtain ⟨_, k2, k3, _⟩ := window_check_keeps t
      rw [ht, k2, k3, hfresh hbranch, hlast]
      exact ⟨rfl, rfl⟩
    · rw [hm] at hthrown
      cases hthrown
  · intro hthrown
    rcases consumer_iteration_cases env s with ⟨t, ht, _, _, _, _, _, _, _⟩ | ⟨hm, hp, hi, hd⟩
    · rw [ht, (window_check_keeps t).1] at hthrown
      cases hthrown
    · rw [hm]
      refine ⟨by unfold branch_taken; rw [if_pos hp, if_pos hi], hd, rfl, ?_,
        (receive_message_malformed env s hd).2.2.2.2.1⟩
      show (receive_message env s).1.time_diff = s.time_diff
      unfold receive_message
      unfold decode_message at hd
      cases h0 : get_int64 env.message 0 with
      | none => rfl
      | some a =>
        cases h1 : get_int64 env.message 1 with
        | none => rfl
        | some b =>
          cases h2 : get_string env.message 2 with
          | none => rfl
          | some l => simp [h0, h1, h2] at hd

/-- The fresh observation time of C9 on a pass whose poll times out at `(101, 0)` and
on a pass that receives a message at `(101, 5)`. -/
theorem fresh_observation_time_witness :
    (branch_taken idle_timeout = branch.message_arrived ∨
        branch_taken idle_timeout = branch.timeout) ∧
      ((consumer_iteration idle_timeout sample_consumer).state.tv2 = ⟨101, 0⟩ ∧
        (consumer_iteration idle_timeout sample_consumer).state.time_diff =
          to_double (wrap64 (101 - 100))) ∧
      ((consumer_iteration sample_arrival sample_consumer).state.tv2 = ⟨101, 5⟩ ∧
        (consumer_iteration sample_arrival sample_consumer).state.time_diff =
          to_double (wrap64 (101 - 100))) :=
  have T1 := fresh_observation_time idle_timeout sample_consumer (by decide)
  have T2 := fresh_observation_time sample_arrival sample_consumer (by decide)
  ⟨T1.1,
   T1.2.1 (by rw [consumer_iteration_timeout idle_timeout sample_consumer rfl]
              exact (window_check_keeps _).1),
   T2.2.1 (by rw [consumer_iteration_decoded sample_arrival sample_consumer rfl rfl
                ⟨100, 999999⟩ [104, 105]
                (decode_make_message ⟨100, 999999⟩ [104, 105] (by decide) (by decide))]
              exact (window_check_keeps _).1)⟩

end StreamGenerator
